import Mathlib

/-!
Verification of the collection-tracker ledger engine.

The definitions below are a shallow embedding of the SQLite database service
(people / cycles / collections / withdrawals tables and the engine operations
`recordCollection`, `skipCollection`, `undoCollection`, `processWithdrawal`,
`processPartialWithdrawal`, `updateCycleData`, `addPerson`, `deletePerson`)
and of the JSON backup import (`importDatabaseFromJSON`).

Tables are lists of rows kept in insertion (rowid) order; every table keeps
its own AUTOINCREMENT counter which survives DELETE FROM.  `getTodayDate()`
and `datetime('now')` are environment inputs, modelled as explicit `today` /
`now` string parameters.  SQL amounts (REAL) are modelled as `Int`; the
claims under study only add, subtract and compare amounts.  The source
enables `PRAGMA foreign_keys = ON`, so an INSERT whose person or cycle
reference does not exist fails; failed statements raise, so each operation
returns the database state reached before the failing statement together
with an optional error message (the source wraps nothing in a transaction).
-/

namespace CollectionTracker

inductive CollectionStatus where
  | collected
  | skipped
  deriving DecidableEq, Repr

/-- Row of the `people` table. -/
structure Person where
  id : Nat
  name : String
  phone : Option String
  location : Option String
  photoPath : Option String
  defaultAmount : Int
  frequency : String
  notes : Option String
  isActive : Bool
  deriving DecidableEq, Repr

/-- Row of the `cycles` table. -/
structure Cycle where
  id : Nat
  personId : Nat
  startDate : String
  endDate : Option String
  totalAmount : Int
  isActive : Bool
  withdrawalDate : Option String
  notes : Option String
  deriving DecidableEq, Repr

/-- Row of the `collections` table (UNIQUE on (personId, date)). -/
structure Collection where
  id : Nat
  personId : Nat
  cycleId : Nat
  date : String
  amount : Option Int
  status : CollectionStatus
  notes : Option String
  deriving DecidableEq, Repr

/-- Row of the `withdrawals` table. -/
structure Withdrawal where
  id : Nat
  personId : Nat
  cycleId : Nat
  amount : Int
  date : String
  notes : Option String
  deriving DecidableEq, Repr

/-- The database: four tables plus their AUTOINCREMENT counters. -/
structure DB where
  people : List Person
  cycles : List Cycle
  collections : List Collection
  withdrawals : List Withdrawal
  nextPersonId : Nat
  nextCycleId : Nat
  nextCollectionId : Nat
  nextWithdrawalId : Nat
  deriving DecidableEq, Repr

def emptyDB : DB := ⟨[], [], [], [], 1, 1, 1, 1⟩

/-- Result of one engine operation: the state reached (the source runs the
statements one by one, without a transaction) and the raised error, if any. -/
structure OpResult where
  db : DB
  err : Option String
  deriving DecidableEq, Repr

/-- JS `s || null` on an optional string (empty string is falsy). -/
def jsOrNullStr (x : Option String) : Option String :=
  match x with
  | some s => if s = "" then none else some s
  | none => none

/-- JS `s || d` on a string. -/
def jsStrOr (s d : String) : String := if s = "" then d else s

/-- JS `x || d` on a number (0 is falsy, so it falls back to `d`). -/
def jsIntOr (x d : Int) : Int := if x = 0 then d else x

/-- JS `x || d` on a nullable number. -/
def jsOptIntOr (x : Option Int) (d : Int) : Int :=
  match x with
  | some v => if v = 0 then d else v
  | none => d

/-- The JS expression `(c?.status === 'collected' && c.amount) || 0` used by
`recordCollection` (existingAmount) and `undoCollection` (amountToSubtract):
a missing row, a non-collected row, or a falsy amount (null or 0) yields 0. -/
def collectedAmountOrZero (c : Option Collection) : Int :=
  match c with
  | some col =>
      if col.status = CollectionStatus.collected then
        match col.amount with
        | some v => if v = 0 then 0 else v
        | none => 0
      else 0
  | none => 0

/-- Predicate of `WHERE person_id = ? AND is_active = 1` on cycles. -/
def activeFor (personId : Nat) (c : Cycle) : Bool :=
  c.personId == personId && c.isActive

/-- Rows of `cycles` matching `person_id = ? AND is_active = 1`, in rowid order. -/
def activesFor (db : DB) (personId : Nat) : List Cycle :=
  db.cycles.filter (activeFor personId)

/-- `getActiveCycle`: first row matching `person_id = ? AND is_active = 1`. -/
def getActiveCycle (db : DB) (personId : Nat) : Option Cycle :=
  (activesFor db personId).head?

/-- Predicate of `WHERE person_id = ? AND date = ?` on collections. -/
def onDate (personId : Nat) (date : String) (c : Collection) : Bool :=
  c.personId == personId && c.date == date

/-- Rows of `collections` for one (person, date). -/
def collectionsForDate (db : DB) (personId : Nat) (date : String) : List Collection :=
  db.collections.filter (onDate personId date)

/-- `getTodayCollection`: first collections row for (person, today). -/
def getTodayCollection (db : DB) (personId : Nat) (today : String) : Option Collection :=
  (collectionsForDate db personId today).head?

/-- `WHERE id = ?` lookup on cycles. -/
def findCycle (db : DB) (cycleId : Nat) : Option Cycle :=
  (db.cycles.filter (fun c => c.id == cycleId)).head?

/-- The stored `total_amount` of the cycle row with the given id. -/
def cycleTotalOf (db : DB) (cycleId : Nat) : Option Int :=
  (findCycle db cycleId).map (fun c => c.totalAmount)

def personExists (db : DB) (personId : Nat) : Bool :=
  db.people.any (fun p => p.id == personId)

def cycleExists (db : DB) (cycleId : Nat) : Bool :=
  db.cycles.any (fun c => c.id == cycleId)

/-- `UPDATE cycles SET total_amount = total_amount + ? WHERE id = ?` (row map). -/
def bumpTotal (cycleId : Nat) (delta : Int) (c : Cycle) : Cycle :=
  if c.id == cycleId then { c with totalAmount := c.totalAmount + delta } else c

def addToCycleTotal (db : DB) (cycleId : Nat) (delta : Int) : DB :=
  { db with cycles := db.cycles.map (bumpTotal cycleId delta) }

/-- `UPDATE cycles SET total_amount = total_amount - ? WHERE id = ?` (row map). -/
def cutTotal (cycleId : Nat) (amt : Int) (c : Cycle) : Cycle :=
  if c.id == cycleId then { c with totalAmount := c.totalAmount - amt } else c

def subFromCycleTotal (db : DB) (cycleId : Nat) (amt : Int) : DB :=
  { db with cycles := db.cycles.map (cutTotal cycleId amt) }

/-- `createCycle`: INSERT a fresh active cycle with total 0; the FOREIGN KEY
on person_id makes the INSERT fail when the person does not exist. -/
def createCycle (db : DB) (personId : Nat) (today : String) :
    Except String (Nat × DB) :=
  if personExists db personId then
    Except.ok (db.nextCycleId,
      { db with
          cycles := db.cycles ++
            [⟨db.nextCycleId, personId, today, none, 0, true, none, none⟩],
          nextCycleId := db.nextCycleId + 1 })
  else Except.error "FOREIGN KEY constraint failed"

/-- `INSERT OR REPLACE INTO collections`: the UNIQUE(person_id, date)
conflict rows are deleted and the new row is inserted with a fresh rowid. -/
def insertOrReplaceCollection (db : DB) (personId cycleId : Nat) (date : String)
    (amount : Option Int) (status : CollectionStatus) (notes : Option String) :
    Except String DB :=
  if personExists db personId && cycleExists db cycleId then
    Except.ok
      { db with
          collections :=
            db.collections.filter (fun c => !(onDate personId date c)) ++
              [⟨db.nextCollectionId, personId, cycleId, date, amount, status, notes⟩],
          nextCollectionId := db.nextCollectionId + 1 }
  else Except.error "FOREIGN KEY constraint failed"

/-- `INSERT INTO withdrawals (person_id, cycle_id, amount, notes)`; the date
column takes its DEFAULT `datetime('now')`, passed here as `now`. -/
def insertWithdrawal (db : DB) (personId cycleId : Nat) (amount : Int)
    (now : String) (notes : Option String) : Except String DB :=
  if personExists db personId && cycleExists db cycleId then
    Except.ok
      { db with
          withdrawals := db.withdrawals ++
            [⟨db.nextWithdrawalId, personId, cycleId, amount, now, notes⟩],
          nextWithdrawalId := db.nextWithdrawalId + 1 }
  else Except.error "FOREIGN KEY constraint failed"

/-- `closeCycle` row update: `SET is_active = 0, end_date = today,
withdrawal_date = datetime('now') WHERE id = ?`. -/
def closeFn (cycleId : Nat) (today now : String) (c : Cycle) : Cycle :=
  if c.id == cycleId then
    { c with isActive := false, endDate := some today, withdrawalDate := some now }
  else c

def closeCycle (db : DB) (cycleId : Nat) (today now : String) : DB :=
  { db with cycles := db.cycles.map (closeFn cycleId today now) }

/-- `recordCollection(personId, amount, notes?)` on date `today`. -/
def recordCollection (db : DB) (personId : Nat) (amount : Int)
    (notes : Option String) (today : String) : OpResult :=
  match getActiveCycle db personId with
  | some cycle =>
      let existingAmount := collectedAmountOrZero (getTodayCollection db personId today)
      match insertOrReplaceCollection db personId cycle.id today (some amount)
          CollectionStatus.collected (jsOrNullStr notes) with
      | Except.error e => ⟨db, some e⟩
      | Except.ok db2 =>
          ⟨addToCycleTotal db2 cycle.id (amount - existingAmount), none⟩
  | none =>
      match createCycle db personId today with
      | Except.error e => ⟨db, some e⟩
      | Except.ok (cycleId, db1) =>
          let existingAmount := collectedAmountOrZero (getTodayCollection db1 personId today)
          match insertOrReplaceCollection db1 personId cycleId today (some amount)
              CollectionStatus.collected (jsOrNullStr notes) with
          | Except.error e => ⟨db1, some e⟩
          | Except.ok db2 =>
              ⟨addToCycleTotal db2 cycleId (amount - existingAmount), none⟩

/-- `skipCollection(personId, notes?)` on date `today`. -/
def skipCollection (db : DB) (personId : Nat) (notes : Option String)
    (today : String) : OpResult :=
  match getActiveCycle db personId with
  | some cycle =>
      match insertOrReplaceCollection db personId cycle.id today none
          CollectionStatus.skipped (jsOrNullStr notes) with
      | Except.error e => ⟨db, some e⟩
      | Except.ok db2 => ⟨db2, none⟩
  | none =>
      match createCycle db personId today with
      | Except.error e => ⟨db, some e⟩
      | Except.ok (cycleId, db1) =>
          match insertOrReplaceCollection db1 personId cycleId today none
              CollectionStatus.skipped (jsOrNullStr notes) with
          | Except.error e => ⟨db1, some e⟩
          | Except.ok db2 => ⟨db2, none⟩

/-- `undoCollection(personId)` on date `today`: read today's amount, DELETE
the row, and subtract the amount from the active cycle when it is > 0. -/
def undoCollection (db : DB) (personId : Nat) (today : String) : OpResult :=
  let amountToSubtract := collectedAmountOrZero (getTodayCollection db personId today)
  let db1 := { db with
    collections := db.collections.filter (fun c => !(onDate personId today c)) }
  if amountToSubtract > 0 then
    match getActiveCycle db1 personId with
    | some cycle => ⟨subFromCycleTotal db1 cycle.id amountToSubtract, none⟩
    | none => ⟨db1, none⟩
  else ⟨db1, none⟩

/-- `processWithdrawal(personId, notes?)`: insert a withdrawal of the whole
cycle total, close the cycle, start a new one. -/
def processWithdrawal (db : DB) (personId : Nat) (notes : Option String)
    (today now : String) : OpResult :=
  match getActiveCycle db personId with
  | none => ⟨db, some "No active cycle found"⟩
  | some cycle =>
      match insertWithdrawal db personId cycle.id cycle.totalAmount now
          (jsOrNullStr notes) with
      | Except.error e => ⟨db, some e⟩
      | Except.ok db1 =>
          let db2 := closeCycle db1 cycle.id today now
          match createCycle db2 personId today with
          | Except.error e => ⟨db2, some e⟩
          | Except.ok (_, db3) => ⟨db3, none⟩

/-- `processPartialWithdrawal(personId, amount, notes?)`: validate against the
cycle total, insert a withdrawal, deduct; the cycle stays active. -/
def processPartialWithdrawal (db : DB) (personId : Nat) (amount : Int)
    (notes : Option String) (now : String) : OpResult :=
  match getActiveCycle db personId with
  | none => ⟨db, some "No active cycle found"⟩
  | some cycle =>
      if amount > cycle.totalAmount then
        ⟨db, some "Withdrawal amount exceeds cycle total"⟩
      else
        match insertWithdrawal db personId cycle.id amount now
            (some (jsStrOr (match notes with | some s => s | none => "") "Partial withdrawal")) with
        | Except.error e => ⟨db, some e⟩
        | Except.ok db1 => ⟨subFromCycleTotal db1 cycle.id amount, none⟩

/-- Input of `addPerson` (fields of a person without id / timestamps). -/
structure PersonInput where
  name : String
  phone : Option String
  location : Option String
  photoPath : Option String
  defaultAmount : Int
  frequency : Option String
  notes : Option String
  isActive : Bool
  deriving DecidableEq, Repr

/-- `addPerson`: INSERT the person, then create their initial cycle. -/
def addPerson (db : DB) (input : PersonInput) (today : String) : OpResult :=
  let personId := db.nextPersonId
  let db1 := { db with
    people := db.people ++
      [⟨personId, input.name, jsOrNullStr input.phone, jsOrNullStr input.location,
        jsOrNullStr input.photoPath, input.defaultAmount,
        jsStrOr (match input.frequency with | some s => s | none => "") "daily",
        jsOrNullStr input.notes, input.isActive⟩],
    nextPersonId := personId + 1 }
  match createCycle db1 personId today with
  | Except.error e => ⟨db1, some e⟩
  | Except.ok (_, db2) => ⟨db2, none⟩

/-- `deletePerson`: soft delete (`UPDATE people SET is_active = 0`). -/
def deletePerson (db : DB) (personId : Nat) : DB :=
  { db with people :=
      db.people.map (fun p => if p.id == personId then { p with isActive := false } else p) }

/-- Row update of `updateCycleData`: overwrite the supplied fields. -/
def overwriteCycle (cycleId : Nat) (totalAmount : Option Int)
    (startDate : Option String) (c : Cycle) : Cycle :=
  if c.id == cycleId then
    { c with totalAmount := totalAmount.getD c.totalAmount,
             startDate := startDate.getD c.startDate }
  else c

/-- `updateCycleData(cycleId, {totalAmount?, startDate?})`: overwrite the
given fields on the cycle row; no-op when no field is supplied. -/
def updateCycleData (db : DB) (cycleId : Nat)
    (totalAmount : Option Int) (startDate : Option String) : DB :=
  if totalAmount.isNone && startDate.isNone then db
  else { db with cycles := db.cycles.map (overwriteCycle cycleId totalAmount startDate) }

/-- Insertion step of `ORDER BY date DESC` (SQLite leaves ties unspecified;
this model keeps a deterministic order). -/
def insertByDateDesc (c : Collection) : List Collection → List Collection
  | [] => [c]
  | d :: ds => if compare d.date c.date == Ordering.lt then c :: d :: ds
               else d :: insertByDateDesc c ds

def sortByDateDesc (l : List Collection) : List Collection :=
  l.foldr insertByDateDesc []

/-- `getCollectionsByCycle`: rows with the given cycle_id, date descending. -/
def getCollectionsByCycle (db : DB) (cycleId : Nat) : List Collection :=
  sortByDateDesc (db.collections.filter (fun c => c.cycleId == cycleId))

/-- One entry of the backup JSON's `people` array, as produced by
`exportDatabaseAsJSON` (the spread person fields, the active cycle, the full
cycles / collections / withdrawals lists of the person). -/
structure DumpPerson where
  name : String
  phone : Option String
  location : Option String
  photoPath : Option String
  defaultAmount : Int
  frequency : String
  notes : Option String
  activeCycle : Option Cycle
  cycles : List Cycle
  collections : List Collection
  withdrawals : List Withdrawal
  deriving DecidableEq, Repr

/-- A parsed backup file whose `people` field is an array (the only shape
check `importDatabaseFromJSON` performs before deleting). -/
structure Dump where
  people : List DumpPerson
  deriving DecidableEq, Repr

/-- One iteration of the collections import loop: INSERT the dumped row for
the person's new cycle (`collection.amount || 0` turns null into 0). -/
def importCollectionRow (personId cycleId : Nat) (db : DB) (c : Collection) : DB :=
  { db with
      collections := db.collections ++
        [(⟨db.nextCollectionId, personId, cycleId, c.date,
          some (jsOptIntOr c.amount 0), c.status, jsOrNullStr c.notes⟩ : Collection)],
      nextCollectionId := db.nextCollectionId + 1 }

/-- One iteration of the withdrawals import loop. -/
def importWithdrawalRow (personId cycleId : Nat) (today : String)
    (db : DB) (w : Withdrawal) : DB :=
  { db with
      withdrawals := db.withdrawals ++
        [(⟨db.nextWithdrawalId, personId, cycleId, jsIntOr w.amount 0,
          jsStrOr w.date today, jsOrNullStr w.notes⟩ : Withdrawal)],
      nextWithdrawalId := db.nextWithdrawalId + 1 }

/-- The person INSERT of the import loop (`is_active` forced to 1). -/
def importPersonRow (db : DB) (pd : DumpPerson) : DB :=
  { db with
      people := db.people ++
        [(⟨db.nextPersonId, pd.name, jsOrNullStr pd.phone, jsOrNullStr pd.location,
          jsOrNullStr pd.photoPath, jsIntOr pd.defaultAmount 0,
          jsStrOr pd.frequency "daily", jsOrNullStr pd.notes, true⟩ : Person)],
      nextPersonId := db.nextPersonId + 1 }

/-- The single cycle INSERT of the import loop, built from
`activeCycle?.startDate || today` and `activeCycle?.totalAmount || 0`. -/
def importActiveCycleRow (db : DB) (pd : DumpPerson) (personId : Nat)
    (today : String) : DB :=
  { db with
      cycles := db.cycles ++
        [(⟨db.nextCycleId, personId,
          (match pd.activeCycle with
           | some c => jsStrOr c.startDate today
           | none => today), none,
          (match pd.activeCycle with
           | some c => jsIntOr c.totalAmount 0
           | none => 0), true, none, none⟩ : Cycle)],
      nextCycleId := db.nextCycleId + 1 }

/-- Per-person body of the import loop: INSERT the person, INSERT one fresh
active cycle, then attach every dumped collection and withdrawal of the
person to that one new cycle.  The dump's `cycles` list is never read. -/
def importPerson (today : String) (db : DB) (pd : DumpPerson) : DB :=
  let personId := db.nextPersonId
  let db1 := importPersonRow db pd
  let cycleId := db1.nextCycleId
  let db2 := importActiveCycleRow db1 pd personId today
  let db3 := pd.collections.foldl (importCollectionRow personId cycleId) db2
  pd.withdrawals.foldl (importWithdrawalRow personId cycleId today) db3

/-- `DELETE FROM` all four entity tables (AUTOINCREMENT counters survive). -/
def clearAll (db : DB) : DB :=
  { db with people := [], cycles := [], collections := [], withdrawals := [] }

/-- `importDatabaseFromJSON`: clear everything, then re-import each dumped
person in order. -/
def importDatabaseFromJSON (db : DB) (dump : Dump) (today : String) : DB :=
  (dump.people).foldl (importPerson today) (clearAll db)

-- ======================
-- Operation harness: one step of the ledger engine, used to state the
-- whole-engine invariants (the resulting state is kept whether or not the
-- operation raised).
-- ======================

inductive Op where
  | addP (input : PersonInput)
  | record (personId : Nat) (amount : Int)
  | skip (personId : Nat)
  | undo (personId : Nat)
  | withdraw (personId : Nat)
  | pwithdraw (personId : Nat) (amount : Int)
  | delP (personId : Nat)
  deriving DecidableEq, Repr

def applyOp (today : String) (db : DB) (op : Op) : DB :=
  match op with
  | Op.addP input => (addPerson db input today).db
  | Op.record personId amount => (recordCollection db personId amount none today).db
  | Op.skip personId => (skipCollection db personId none today).db
  | Op.undo personId => (undoCollection db personId today).db
  | Op.withdraw personId => (processWithdrawal db personId none today today).db
  | Op.pwithdraw personId amount => (processPartialWithdrawal db personId amount none today).db
  | Op.delP personId => deletePerson db personId

/-- At most one active cycle per person. -/
def AtMostOneActive (db : DB) : Prop :=
  ∀ personId : Nat, (activesFor db personId).length ≤ 1

/-- Structural facts every reachable SQLite state satisfies: the people
AUTOINCREMENT counter is above every stored person id, and (foreign key)
every cycle row references an existing person row. -/
def WF (db : DB) : Prop :=
  (∀ p ∈ db.people, p.id < db.nextPersonId) ∧
  (∀ c ∈ db.cycles, ∃ p ∈ db.people, p.id = c.personId)

/-- Every collection and withdrawal row references a cycle row of the same
person, and that cycle is active. -/
def Threaded (db : DB) : Prop :=
  (∀ c ∈ db.collections, ∃ cy ∈ db.cycles,
    cy.id = c.cycleId ∧ cy.personId = c.personId ∧ cy.isActive = true) ∧
  (∀ w ∈ db.withdrawals, ∃ cy ∈ db.cycles,
    cy.id = w.cycleId ∧ cy.personId = w.personId ∧ cy.isActive = true)

-- ======================
-- Concrete fixtures (used by witnesses and counterexamples)
-- ======================

def day1 : String := "2026-01-01"

def personA : PersonInput := ⟨"A", none, none, none, 200, none, none, true⟩

/-- One person (id 1) freshly added, with their initial active cycle (id 1,
total 0). -/
def dbA : DB := (addPerson emptyDB personA day1).db

/-- `dbA` after collecting 500 on `day1`: active cycle total 500. -/
def dbB : DB := (recordCollection dbA 1 500 none day1).db

/-- The active cycle row of `dbB`. -/
def cyB : Cycle := ⟨1, 1, day1, none, 500, true, none, none⟩

def cyA : Cycle := ⟨1, 1, day1, none, 0, true, none, none⟩

-- Fixtures for the restore counterexample: a backup of one person holding
-- two cycles (id 1 closed, id 2 active with total 100) and one collection
-- row that belonged to the closed cycle 1.

def dumpCycleClosed : Cycle :=
  ⟨1, 1, "2025-01-01", some "2025-06-01", 0, false, some "2025-06-01", none⟩

def dumpCycleActive : Cycle := ⟨2, 1, "2025-06-01", none, 100, true, none, none⟩

def dumpColl : Collection := ⟨1, 1, 1, "2025-02-01", some 5, CollectionStatus.collected, none⟩

def dumpPd : DumpPerson :=
  ⟨"A", none, none, none, 200, "daily", none, some dumpCycleActive,
    [dumpCycleClosed, dumpCycleActive], [dumpColl], []⟩

def dumpX : Dump := ⟨[dumpPd]⟩

-- ======================
-- Generic list lemmas
-- ======================

lemma head?_mem {α : Type} (l : List α) (a : α) (h : l.head? = some a) : a ∈ l := by
  cases l with
  | nil => cases h
  | cons x t =>
    rw [List.head?_cons] at h
    injection h with h2
    rw [← h2]
    exact List.mem_cons_self x t

lemma filter_map_of_pred_eq {α : Type} (p : α → Bool) (g : α → α)
    (h : ∀ x, p (g x) = p x) (l : List α) :
    (l.map g).filter p = (l.filter p).map g := by
  induction l with
  | nil => rfl
  | cons a t ih =>
    simp only [List.map_cons, List.filter_cons, h a]
    cases hp : p a <;> simp [ih]

lemma filter_not_filter_self {α : Type} (p : α → Bool) (l : List α) :
    (l.filter (fun x => !(p x))).filter p = [] := by
  rw [List.filter_eq_nil_iff]
  intro a ha
  have h2 := (List.mem_filter.mp ha).2
  simp only [Bool.not_eq_true'] at h2
  simp [h2]

lemma filter_of_none {α : Type} (p : α → Bool) (l : List α)
    (h : l.filter p = []) : l.filter (fun x => !(p x)) = l := by
  rw [List.filter_eq_self]
  intro a ha
  have := List.filter_eq_nil_iff.mp h a ha
  simp [Bool.not_eq_true'] at this ⊢
  exact this

lemma filter_replaced {α : Type} (p : α → Bool) (l : List α) (row : α)
    (hrow : p row = true) :
    (l.filter (fun x => !(p x)) ++ [row]).filter p = [row] := by
  rw [List.filter_append, filter_not_filter_self]
  simp [hrow]

-- ======================
-- Row-update facts
-- ======================

lemma bumpTotal_id (cycleId : Nat) (delta : Int) (c : Cycle) :
    (bumpTotal cycleId delta c).id = c.id := by
  unfold bumpTotal; split <;> rfl

lemma cutTotal_id (cycleId : Nat) (amt : Int) (c : Cycle) :
    (cutTotal cycleId amt c).id = c.id := by
  unfold cutTotal; split <;> rfl

lemma closeFn_id (cycleId : Nat) (today now : String) (c : Cycle) :
    (closeFn cycleId today now c).id = c.id := by
  unfold closeFn; split <;> rfl

lemma closeFn_personId (cycleId : Nat) (today now : String) (c : Cycle) :
    (closeFn cycleId today now c).personId = c.personId := by
  unfold closeFn; split <;> rfl

lemma activeFor_bumpTotal (personId cycleId : Nat) (delta : Int) (c : Cycle) :
    activeFor personId (bumpTotal cycleId delta c) = activeFor personId c := by
  unfold activeFor bumpTotal; split <;> rfl

lemma activeFor_cutTotal (personId cycleId : Nat) (amt : Int) (c : Cycle) :
    activeFor personId (cutTotal cycleId amt c) = activeFor personId c := by
  unfold activeFor cutTotal; split <;> rfl

lemma activeFor_closeFn_imp (personId cycleId : Nat) (today now : String) (c : Cycle)
    (h : activeFor personId (closeFn cycleId today now c) = true) :
    activeFor personId c = true := by
  unfold activeFor closeFn at h
  unfold activeFor
  by_cases hid : (c.id == cycleId) = true
  · rw [if_pos hid] at h; simp at h
  · rw [if_neg hid] at h; exact h

lemma closeFn_of_matching (cycleId : Nat) (today now : String) (c : Cycle)
    (h : (c.id == cycleId) = true) :
    closeFn cycleId today now c =
      { c with isActive := false, endDate := some today, withdrawalDate := some now } := by
  unfold closeFn; rw [if_pos h]

-- ======================
-- Query lemmas
-- ======================

lemma getActiveCycle_eq_some (db : DB) (personId : Nat) (cy : Cycle)
    (h : getActiveCycle db personId = some cy) :
    cy ∈ db.cycles ∧ activeFor personId cy = true := by
  unfold getActiveCycle at h
  have hmem : cy ∈ activesFor db personId := by
    cases hl : activesFor db personId with
    | nil => rw [hl] at h; cases h
    | cons a t =>
      rw [hl, List.head?_cons] at h
      injection h with h'
      rw [← h']
      exact List.mem_cons_self a t
  exact ⟨(List.mem_filter.mp hmem).1, (List.mem_filter.mp hmem).2⟩

lemma cycleExists_of_mem (db : DB) (cy : Cycle) (hc : cy ∈ db.cycles) :
    cycleExists db cy.id = true :=
  List.any_eq_true.mpr ⟨cy, hc, beq_self_eq_true _⟩

lemma activesFor_addToCycleTotal (db : DB) (cycleId : Nat) (delta : Int) (personId : Nat) :
    activesFor (addToCycleTotal db cycleId delta) personId =
      (activesFor db personId).map (bumpTotal cycleId delta) := by
  show (db.cycles.map (bumpTotal cycleId delta)).filter (activeFor personId) = _
  exact filter_map_of_pred_eq _ _ (activeFor_bumpTotal personId cycleId delta) db.cycles

lemma activesFor_subFromCycleTotal (db : DB) (cycleId : Nat) (amt : Int) (personId : Nat) :
    activesFor (subFromCycleTotal db cycleId amt) personId =
      (activesFor db personId).map (cutTotal cycleId amt) := by
  show (db.cycles.map (cutTotal cycleId amt)).filter (activeFor personId) = _
  exact filter_map_of_pred_eq _ _ (activeFor_cutTotal personId cycleId amt) db.cycles

lemma getActiveCycle_addToCycleTotal (db : DB) (cycleId : Nat) (delta : Int) (personId : Nat) :
    getActiveCycle (addToCycleTotal db cycleId delta) personId =
      (getActiveCycle db personId).map (bumpTotal cycleId delta) := by
  unfold getActiveCycle
  rw [activesFor_addToCycleTotal, List.head?_map]

lemma cycleTotalOf_addToCycleTotal (db : DB) (cycleId : Nat) (delta : Int) :
    cycleTotalOf (addToCycleTotal db cycleId delta) cycleId =
      (cycleTotalOf db cycleId).map (fun t => t + delta) := by
  unfold cycleTotalOf findCycle
  show (((db.cycles.map (bumpTotal cycleId delta)).filter
      (fun c => c.id == cycleId)).head?.map (fun c => c.totalAmount)) = _
  rw [filter_map_of_pred_eq _ _ (fun c => by rw [bumpTotal_id]) db.cycles, List.head?_map]
  cases hh : (db.cycles.filter (fun c => c.id == cycleId)).head? with
  | none => rfl
  | some c0 =>
    have hid : (c0.id == cycleId) = true :=
      (List.mem_filter.mp (head?_mem _ _ hh)).2
    simp [bumpTotal, hid]

lemma cycleTotalOf_subFromCycleTotal (db : DB) (cycleId : Nat) (amt : Int) :
    cycleTotalOf (subFromCycleTotal db cycleId amt) cycleId =
      (cycleTotalOf db cycleId).map (fun t => t - amt) := by
  unfold cycleTotalOf findCycle
  show (((db.cycles.map (cutTotal cycleId amt)).filter
      (fun c => c.id == cycleId)).head?.map (fun c => c.totalAmount)) = _
  rw [filter_map_of_pred_eq _ _ (fun c => by rw [cutTotal_id]) db.cycles, List.head?_map]
  cases hh : (db.cycles.filter (fun c => c.id == cycleId)).head? with
  | none => rfl
  | some c0 =>
    have hid : (c0.id == cycleId) = true :=
      (List.mem_filter.mp (head?_mem _ _ hh)).2
    simp [cutTotal, hid]

-- ======================
-- Operation characterizations
-- ======================

/-- `recordCollection` when an active cycle exists and the person row exists:
replace the (person, today) collection row and bump the cycle total by the
difference with the previously collected amount. -/
lemma recordCollection_spec (db : DB) (personId : Nat) (a : Int)
    (notes : Option String) (today : String) (cy : Cycle)
    (hcy : getActiveCycle db personId = some cy)
    (hp : personExists db personId = true) :
    recordCollection db personId a notes today =
      ⟨addToCycleTotal
        { db with
            collections := db.collections.filter (fun c => !(onDate personId today c)) ++
              [⟨db.nextCollectionId, personId, cy.id, today, some a,
                CollectionStatus.collected, jsOrNullStr notes⟩],
            nextCollectionId := db.nextCollectionId + 1 }
        cy.id (a - collectedAmountOrZero (getTodayCollection db personId today)), none⟩ := by
  have hex : cycleExists db cy.id = true :=
    cycleExists_of_mem db cy (getActiveCycle_eq_some db personId cy hcy).1
  simp only [recordCollection, hcy, insertOrReplaceCollection, hp, hex,
    Bool.and_self, if_true]

/-- `skipCollection` when an active cycle exists and the person row exists:
replace the (person, today) row by a skipped row; cycles untouched. -/
lemma skipCollection_spec (db : DB) (personId : Nat)
    (notes : Option String) (today : String) (cy : Cycle)
    (hcy : getActiveCycle db personId = some cy)
    (hp : personExists db personId = true) :
    skipCollection db personId notes today =
      ⟨{ db with
          collections := db.collections.filter (fun c => !(onDate personId today c)) ++
            [⟨db.nextCollectionId, personId, cy.id, today, none,
              CollectionStatus.skipped, jsOrNullStr notes⟩],
          nextCollectionId := db.nextCollectionId + 1 }, none⟩ := by
  have hex : cycleExists db cy.id = true :=
    cycleExists_of_mem db cy (getActiveCycle_eq_some db personId cy hcy).1
  simp only [skipCollection, hcy, insertOrReplaceCollection, hp, hex,
    Bool.and_self, if_true]

/-- `processWithdrawal` when the active cycle and the person row exist:
one withdrawal row for the whole total, the cycle closed, a fresh active
cycle appended. -/
lemma processWithdrawal_spec (db : DB) (personId : Nat)
    (notes : Option String) (today now : String) (cy : Cycle)
    (hcy : getActiveCycle db personId = some cy)
    (hp : personExists db personId = true) :
    processWithdrawal db personId notes today now =
      ⟨{ db with
          cycles := db.cycles.map (closeFn cy.id today now) ++
            [⟨db.nextCycleId, personId, today, none, 0, true, none, none⟩],
          withdrawals := db.withdrawals ++
            [⟨db.nextWithdrawalId, personId, cy.id, cy.totalAmount, now, jsOrNullStr notes⟩],
          nextCycleId := db.nextCycleId + 1,
          nextWithdrawalId := db.nextWithdrawalId + 1 }, none⟩ := by
  have hex : cycleExists db cy.id = true :=
    cycleExists_of_mem db cy (getActiveCycle_eq_some db personId cy hcy).1
  have hpraw : (db.people.any fun p => p.id == personId) = true := hp
  have hexraw : (db.cycles.any fun c => c.id == cy.id) = true := hex
  simp [processWithdrawal, hcy, insertWithdrawal, closeCycle, createCycle,
    personExists, cycleExists, hpraw, hexraw]

/-- `processPartialWithdrawal` rejection branch: amount above the cycle
total raises and performs no write at all. -/
lemma processPartialWithdrawal_reject (db : DB) (personId : Nat) (a : Int)
    (notes : Option String) (now : String) (cy : Cycle)
    (hcy : getActiveCycle db personId = some cy)
    (hgt : a > cy.totalAmount) :
    processPartialWithdrawal db personId a notes now =
      ⟨db, some "Withdrawal amount exceeds cycle total"⟩ := by
  simp only [processPartialWithdrawal, hcy]
  rw [if_pos hgt]

/-- `processPartialWithdrawal` success branch: insert the withdrawal and
deduct the amount from the still-active cycle. -/
lemma processPartialWithdrawal_accept (db : DB) (personId : Nat) (a : Int)
    (notes : Option String) (now : String) (cy : Cycle)
    (hcy : getActiveCycle db personId = some cy)
    (hp : personExists db personId = true)
    (hle : ¬ a > cy.totalAmount) :
    processPartialWithdrawal db personId a notes now =
      ⟨subFromCycleTotal
        { db with
            withdrawals := db.withdrawals ++
              [⟨db.nextWithdrawalId, personId, cy.id, a, now,
                some (jsStrOr (match notes with | some s => s | none => "") "Partial withdrawal")⟩],
            nextWithdrawalId := db.nextWithdrawalId + 1 }
        cy.id a, none⟩ := by
  have hex : cycleExists db cy.id = true :=
    cycleExists_of_mem db cy (getActiveCycle_eq_some db personId cy hcy).1
  simp only [processPartialWithdrawal, hcy]
  rw [if_neg hle]
  simp only [insertWithdrawal, hp, hex, Bool.and_self, if_true]

lemma overwriteCycle_id (cycleId : Nat) (t : Option Int) (sd : Option String)
    (c : Cycle) : (overwriteCycle cycleId t sd c).id = c.id := by
  unfold overwriteCycle; split <;> rfl

-- ======================
-- Claim theorems
-- ======================

/-- C9, counterexample: the claim says a call of `updateCycleData` with a
negative `totalAmount` is rejected and leaves the stored total unchanged;
on the cycle of `dbA` (stored total 0) the call with -5 stores -5. -/
theorem C9_counterexample :
    cycleTotalOf dbA 1 = some 0 ∧
    cycleTotalOf (updateCycleData dbA 1 (some (-5)) none) 1 = some (-5) := by
  decide

/-- C9 (amended): `updateCycleData` performs no non-negativity validation:
whenever a `totalAmount` is supplied — negative values included — it
overwrites the stored total of the addressed cycle with the given value. -/
theorem C9_update_overwrites_total (db : DB) (cycleId : Nat) (t : Int)
    (sd : Option String) :
    cycleTotalOf (updateCycleData db cycleId (some t) sd) cycleId =
      (cycleTotalOf db cycleId).map (fun _ => t) := by
  have hcond : ((some t).isNone && sd.isNone) = false := rfl
  unfold updateCycleData
  rw [hcond]
  simp only [Bool.false_eq_true, if_false]
  unfold cycleTotalOf findCycle
  show (((db.cycles.map (overwriteCycle cycleId (some t) sd)).filter
      (fun c => c.id == cycleId)).head?.map (fun c => c.totalAmount)) = _
  rw [filter_map_of_pred_eq _ _ (fun c => by rw [overwriteCycle_id]) db.cycles,
    List.head?_map]
  cases hh : (db.cycles.filter (fun c => c.id == cycleId)).head? with
  | none => rfl
  | some c0 =>
    have hid : (c0.id == cycleId) = true :=
      (List.mem_filter.mp (head?_mem _ _ hh)).2
    simp [overwriteCycle, hid]

/-- C6: with an active cycle of total T, `processPartialWithdrawal` with an
amount above T raises `InsufficientBalance` ("Withdrawal amount exceeds
cycle total") leaving the state completely unchanged, and with an amount at
most T it succeeds. -/
theorem C6_over_withdrawal_rejected (db : DB) (personId : Nat) (a : Int)
    (notes : Option String) (now : String) (cy : Cycle)
    (hcy : getActiveCycle db personId = some cy)
    (hp : personExists db personId = true) :
    (a > cy.totalAmount →
      processPartialWithdrawal db personId a notes now =
        ⟨db, some "Withdrawal amount exceeds cycle total"⟩) ∧
    (a ≤ cy.totalAmount →
      (processPartialWithdrawal db personId a notes now).err = none) := by
  constructor
  · intro hgt
    exact processPartialWithdrawal_reject db personId a notes now cy hcy hgt
  · intro hle
    rw [processPartialWithdrawal_accept db personId a notes now cy hcy hp
      (not_lt.mpr hle)]

theorem C6_witness :
    processPartialWithdrawal dbB 1 600 none day1 =
      ⟨dbB, some "Withdrawal amount exceeds cycle total"⟩ ∧
    (processPartialWithdrawal dbB 1 500 none day1).err = none :=
  ⟨(C6_over_withdrawal_rejected dbB 1 600 none day1 cyB (by decide) (by decide)).1
      (by decide),
   (C6_over_withdrawal_rejected dbB 1 500 none day1 cyB (by decide) (by decide)).2
      (by decide)⟩

/-- C7: `skipCollection` upserts the (person, today) row to status skipped
with null amount and does not touch the cycles table at all — in particular
a previously collected amount on that date is not subtracted from the cycle
total. -/
theorem C7_skip_leaves_total (db : DB) (personId : Nat)
    (notes : Option String) (today : String) (cy : Cycle)
    (hcy : getActiveCycle db personId = some cy)
    (hp : personExists db personId = true) :
    (skipCollection db personId notes today).err = none ∧
    (skipCollection db personId notes today).db.cycles = db.cycles ∧
    (collectionsForDate (skipCollection db personId notes today).db personId today).map
        (fun c => (c.amount, c.status)) = [(none, CollectionStatus.skipped)] := by
  rw [skipCollection_spec db personId notes today cy hcy hp]
  refine ⟨rfl, rfl, ?_⟩
  show ((db.collections.filter (fun c => !(onDate personId today c)) ++
      [(⟨db.nextCollectionId, personId, cy.id, today, none,
        CollectionStatus.skipped, jsOrNullStr notes⟩ : Collection)]).filter
      (onDate personId today)).map (fun c => (c.amount, c.status)) = _
  rw [filter_replaced _ _ _ (by simp [onDate])]
  rfl

theorem C7_witness :
    (skipCollection dbB 1 none day1).err = none ∧
    (skipCollection dbB 1 none day1).db.cycles = dbB.cycles ∧
    (collectionsForDate (skipCollection dbB 1 none day1).db 1 day1).map
        (fun c => (c.amount, c.status)) = [(none, CollectionStatus.skipped)] :=
  C7_skip_leaves_total dbB 1 none day1 cyB (by decide) (by decide)

-- ======================
-- Effect summaries used by several claims
-- ======================

lemma personExists_congr (db1 db2 : DB) (personId : Nat)
    (h : db1.people = db2.people) :
    personExists db1 personId = personExists db2 personId := by
  unfold personExists; rw [h]

lemma getActiveCycle_congr (db1 db2 : DB) (personId : Nat)
    (h : db1.cycles = db2.cycles) :
    getActiveCycle db1 personId = getActiveCycle db2 personId := by
  unfold getActiveCycle activesFor; rw [h]

lemma cycleTotalOf_congr (db1 db2 : DB) (cycleId : Nat)
    (h : db1.cycles = db2.cycles) :
    cycleTotalOf db1 cycleId = cycleTotalOf db2 cycleId := by
  unfold cycleTotalOf findCycle; rw [h]

lemma recordCollection_effects (db : DB) (personId : Nat) (amount : Int)
    (notes : Option String) (today : String) (cy : Cycle)
    (hcy : getActiveCycle db personId = some cy)
    (hp : personExists db personId = true) :
    (recordCollection db personId amount notes today).err = none ∧
    (recordCollection db personId amount notes today).db.people = db.people ∧
    getActiveCycle (recordCollection db personId amount notes today).db personId =
      some (bumpTotal cy.id
        (amount - collectedAmountOrZero (getTodayCollection db personId today)) cy) ∧
    (recordCollection db personId amount notes today).db.collections =
      db.collections.filter (fun c => !(onDate personId today c)) ++
        [(⟨db.nextCollectionId, personId, cy.id, today, some amount,
          CollectionStatus.collected, jsOrNullStr notes⟩ : Collection)] ∧
    collectionsForDate (recordCollection db personId amount notes today).db personId today =
      [(⟨db.nextCollectionId, personId, cy.id, today, some amount,
        CollectionStatus.collected, jsOrNullStr notes⟩ : Collection)] ∧
    cycleTotalOf (recordCollection db personId amount notes today).db cy.id =
      (cycleTotalOf db cy.id).map
        (fun t => t + (amount - collectedAmountOrZero (getTodayCollection db personId today))) := by
  rw [recordCollection_spec db personId amount notes today cy hcy hp]
  refine ⟨rfl, rfl, ?_, rfl, ?_, ?_⟩
  · rw [getActiveCycle_addToCycleTotal]
    exact congrArg (Option.map _) hcy
  · exact filter_replaced _ _ _ (by simp [onDate])
  · rw [cycleTotalOf_addToCycleTotal]
    rfl

lemma skipCollection_effects (db : DB) (personId : Nat)
    (notes : Option String) (today : String) (cy : Cycle)
    (hcy : getActiveCycle db personId = some cy)
    (hp : personExists db personId = true) :
    (skipCollection db personId notes today).err = none ∧
    (skipCollection db personId notes today).db.people = db.people ∧
    (skipCollection db personId notes today).db.cycles = db.cycles ∧
    (skipCollection db personId notes today).db.collections =
      db.collections.filter (fun c => !(onDate personId today c)) ++
        [(⟨db.nextCollectionId, personId, cy.id, today, none,
          CollectionStatus.skipped, jsOrNullStr notes⟩ : Collection)] := by
  rw [skipCollection_spec db personId notes today cy hcy hp]
  exact ⟨rfl, rfl, rfl, rfl⟩

/-- C1: two `recordCollection` calls for the same person on the same date
(no prior row for that date) leave exactly one collected row holding the
second amount; the cycle total moves by a net of the second amount, the
second call itself contributing the difference of the two amounts. -/
theorem C1_idempotent_recollection (db : DB) (personId : Nat) (a b : Int)
    (n1 n2 : Option String) (today : String) (cy : Cycle) (r1 r2 : OpResult)
    (hcy : getActiveCycle db personId = some cy)
    (hp : personExists db personId = true)
    (hfind : findCycle db cy.id = some cy)
    (hfresh : collectionsForDate db personId today = [])
    (hr1 : recordCollection db personId a n1 today = r1)
    (hr2 : recordCollection r1.db personId b n2 today = r2) :
    r2.err = none ∧
    (collectionsForDate r2.db personId today).map (fun c => (c.amount, c.status)) =
      [(some b, CollectionStatus.collected)] ∧
    cycleTotalOf r2.db cy.id = some (cy.totalAmount + b) ∧
    cycleTotalOf r2.db cy.id = (cycleTotalOf r1.db cy.id).map (fun t => t + (b - a)) := by
  subst hr1
  subst hr2
  have hE1 : collectedAmountOrZero (getTodayCollection db personId today) = 0 := by
    unfold getTodayCollection
    rw [hfresh]
    rfl
  obtain ⟨e1err, e1people, e1active, e1coll, e1rows, e1total⟩ :=
    recordCollection_effects db personId a n1 today cy hcy hp
  rw [hE1] at e1active e1total
  have hp1 : personExists (recordCollection db personId a n1 today).db personId = true := by
    rw [personExists_congr _ db personId e1people]
    exact hp
  obtain ⟨e2err, e2people, e2active, e2coll, e2rows, e2total⟩ :=
    recordCollection_effects (recordCollection db personId a n1 today).db personId b n2
      today (bumpTotal cy.id (a - 0) cy) e1active hp1
  have hrow1 : getTodayCollection (recordCollection db personId a n1 today).db personId today =
      some ⟨db.nextCollectionId, personId, cy.id, today, some a,
        CollectionStatus.collected, jsOrNullStr n1⟩ := by
    unfold getTodayCollection
    rw [e1rows]
    rfl
  have hE2 : collectedAmountOrZero
      (getTodayCollection (recordCollection db personId a n1 today).db personId today) =
      if a = 0 then 0 else a := by
    rw [hrow1]
    simp [collectedAmountOrZero]
  rw [hE2] at e2total
  rw [bumpTotal_id] at e2total
  have t0 : cycleTotalOf db cy.id = some cy.totalAmount := by
    unfold cycleTotalOf
    rw [hfind]
    rfl
  have t1 : cycleTotalOf (recordCollection db personId a n1 today).db cy.id =
      some (cy.totalAmount + (a - 0)) := by
    rw [e1total, t0]
    rfl
  have t2 : cycleTotalOf
      (recordCollection (recordCollection db personId a n1 today).db personId b n2 today).db
      cy.id = some (cy.totalAmount + (a - 0) + (b - if a = 0 then 0 else a)) := by
    rw [e2total, t1]
    rfl
  refine ⟨e2err, ?_, ?_, ?_⟩
  · rw [e2rows]
    rfl
  · rw [t2]
    by_cases ha : a = 0 <;> simp [ha]
  · rw [t2, t1]
    by_cases ha : a = 0 <;> simp [ha]

theorem C1_witness :
    (recordCollection (recordCollection dbA 1 100 none day1).db 1 150 none day1).err = none ∧
    (collectionsForDate
        (recordCollection (recordCollection dbA 1 100 none day1).db 1 150 none day1).db 1 day1).map
        (fun c => (c.amount, c.status)) = [(some 150, CollectionStatus.collected)] ∧
    cycleTotalOf
        (recordCollection (recordCollection dbA 1 100 none day1).db 1 150 none day1).db 1 =
      some (cyA.totalAmount + 150) ∧
    cycleTotalOf
        (recordCollection (recordCollection dbA 1 100 none day1).db 1 150 none day1).db 1 =
      (cycleTotalOf (recordCollection dbA 1 100 none day1).db 1).map (fun t => t + (150 - 100)) :=
  C1_idempotent_recollection dbA 1 100 150 none none day1 cyA
    (recordCollection dbA 1 100 none day1)
    (recordCollection (recordCollection dbA 1 100 none day1).db 1 150 none day1)
    (by decide) (by decide) (by decide) (by decide) rfl rfl

/-- C5, counterexample: the claim as stated quantifies over every amount.
With a = -1 the undo's amount guard `amountToSubtract > 0` does not fire,
so the collect/undo round trip leaves the cycle total at -1 instead of
restoring the prior total 0, although the preconditions (active cycle, no
row for today) hold. -/
theorem C5_counterexample :
    getActiveCycle dbA 1 = some cyA ∧
    collectionsForDate dbA 1 day1 = [] ∧
    cycleTotalOf dbA 1 = some 0 ∧
    cycleTotalOf ((undoCollection (recordCollection dbA 1 (-1) none day1).db 1 day1).db) 1 =
      some (-1) ∧
    collectionsForDate ((undoCollection (recordCollection dbA 1 (-1) none day1).db 1 day1).db)
      1 day1 = [] := by
  decide

/-- C5 (amended): for every non-negative amount, `recordCollection` followed
by `undoCollection` on the same day restores the cycle total to its prior
value and leaves the collections table exactly as it was (in particular no
row for (person, today)). -/
theorem C5_undo_roundtrip (db : DB) (personId : Nat) (a : Int)
    (n1 : Option String) (today : String) (cy : Cycle) (r1 r2 : OpResult)
    (hcy : getActiveCycle db personId = some cy)
    (hp : personExists db personId = true)
    (hfind : findCycle db cy.id = some cy)
    (hfresh : collectionsForDate db personId today = [])
    (ha : 0 ≤ a)
    (hr1 : recordCollection db personId a n1 today = r1)
    (hr2 : undoCollection r1.db personId today = r2) :
    r2.err = none ∧
    cycleTotalOf r2.db cy.id = some cy.totalAmount ∧
    collectionsForDate r2.db personId today = [] ∧
    r2.db.collections = db.collections := by
  subst hr1
  subst hr2
  have hE1 : collectedAmountOrZero (getTodayCollection db personId today) = 0 := by
    unfold getTodayCollection
    rw [hfresh]
    rfl
  obtain ⟨e1err, e1people, e1active, e1coll, e1rows, e1total⟩ :=
    recordCollection_effects db personId a n1 today cy hcy hp
  rw [hE1] at e1active e1total
  rw [filter_of_none _ _ hfresh] at e1coll
  have hrow1 : getTodayCollection (recordCollection db personId a n1 today).db personId today =
      some ⟨db.nextCollectionId, personId, cy.id, today, some a,
        CollectionStatus.collected, jsOrNullStr n1⟩ := by
    unfold getTodayCollection
    rw [e1rows]
    rfl
  have hE2 : collectedAmountOrZero
      (getTodayCollection (recordCollection db personId a n1 today).db personId today) =
      if a = 0 then 0 else a := by
    rw [hrow1]
    simp [collectedAmountOrZero]
  have t0 : cycleTotalOf db cy.id = some cy.totalAmount := by
    unfold cycleTotalOf
    rw [hfind]
    rfl
  have t1 : cycleTotalOf (recordCollection db personId a n1 today).db cy.id =
      some (cy.totalAmount + (a - 0)) := by
    rw [e1total, t0]
    rfl
  have hdel : ((recordCollection db personId a n1 today).db.collections.filter
      (fun c => !(onDate personId today c))) = db.collections := by
    rw [e1coll, List.filter_append, filter_of_none _ _ hfresh]
    simp [onDate]
  by_cases ha0 : a = 0
  · have hA : collectedAmountOrZero
        (getTodayCollection (recordCollection db personId a n1 today).db personId today) = 0 := by
      rw [hE2]
      simp [ha0]
    have hu : undoCollection (recordCollection db personId a n1 today).db personId today =
        ⟨{ (recordCollection db personId a n1 today).db with
            collections := (recordCollection db personId a n1 today).db.collections.filter
              (fun c => !(onDate personId today c)) }, none⟩ := by
      unfold undoCollection
      rw [hA]
      norm_num
    rw [hu]
    refine ⟨rfl, ?_, ?_, hdel⟩
    · have hc : cycleTotalOf
          { (recordCollection db personId a n1 today).db with
              collections := (recordCollection db personId a n1 today).db.collections.filter
                (fun c => !(onDate personId today c)) } cy.id =
          cycleTotalOf (recordCollection db personId a n1 today).db cy.id :=
        cycleTotalOf_congr _ _ _ rfl
      rw [hc, t1, ha0]
      norm_num
    · unfold collectionsForDate
      show ((recordCollection db personId a n1 today).db.collections.filter
          (fun c => !(onDate personId today c))).filter (onDate personId today) = []
      rw [hdel]
      exact hfresh
  · have hapos : (0 : Int) < a := lt_of_le_of_ne ha (Ne.symm ha0)
    have hA : collectedAmountOrZero
        (getTodayCollection (recordCollection db personId a n1 today).db personId today) = a := by
      rw [hE2]
      simp [ha0]
    have e1active' : getActiveCycle
        { (recordCollection db personId a n1 today).db with
            collections := (recordCollection db personId a n1 today).db.collections.filter
              (fun c => !(onDate personId today c)) } personId =
        some (bumpTotal cy.id (a - 0) cy) :=
      (getActiveCycle_congr _ _ _ rfl).trans e1active
    have hu : undoCollection (recordCollection db personId a n1 today).db personId today =
        ⟨subFromCycleTotal
          { (recordCollection db personId a n1 today).db with
              collections := (recordCollection db personId a n1 today).db.collections.filter
                (fun c => !(onDate personId today c)) }
          (bumpTotal cy.id (a - 0) cy).id a, none⟩ := by
      unfold undoCollection
      rw [hA, if_pos hapos, e1active']
    rw [hu]
    rw [bumpTotal_id]
    refine ⟨rfl, ?_, ?_, hdel⟩
    · rw [cycleTotalOf_subFromCycleTotal]
      have hc : cycleTotalOf
          { (recordCollection db personId a n1 today).db with
              collections := (recordCollection db personId a n1 today).db.collections.filter
                (fun c => !(onDate personId today c)) } cy.id =
          cycleTotalOf (recordCollection db personId a n1 today).db cy.id :=
        cycleTotalOf_congr _ _ _ rfl
      rw [hc, t1]
      norm_num
    · unfold collectionsForDate
      show ((recordCollection db personId a n1 today).db.collections.filter
          (fun c => !(onDate personId today c))).filter (onDate personId today) = []
      rw [hdel]
      exact hfresh

theorem C5_witness :
    (undoCollection (recordCollection dbA 1 200 none day1).db 1 day1).err = none ∧
    cycleTotalOf (undoCollection (recordCollection dbA 1 200 none day1).db 1 day1).db 1 =
      some cyA.totalAmount ∧
    collectionsForDate (undoCollection (recordCollection dbA 1 200 none day1).db 1 day1).db
      1 day1 = [] ∧
    (undoCollection (recordCollection dbA 1 200 none day1).db 1 day1).db.collections =
      dbA.collections :=
  C5_undo_roundtrip dbA 1 200 none day1 cyA
    (recordCollection dbA 1 200 none day1)
    (undoCollection (recordCollection dbA 1 200 none day1).db 1 day1)
    (by decide) (by decide) (by decide) (by decide) (by decide) rfl rfl

/-- C10: when today's row is skipped (here: after collect `a` then skip),
`recordCollection` computes `existingAmount = 0` and adds the whole new
amount: the collect-a / skip / collect-b sequence on one date leaves a
single collected row of amount `b` while the cycle total has grown by
`a + b` — the earlier amount `a` stays counted in the total. -/
theorem C10_skip_then_recollect (db : DB) (personId : Nat) (a b : Int)
    (n1 n2 n3 : Option String) (today : String) (cy : Cycle) (r1 r2 r3 : OpResult)
    (hcy : getActiveCycle db personId = some cy)
    (hp : personExists db personId = true)
    (hfind : findCycle db cy.id = some cy)
    (hfresh : collectionsForDate db personId today = [])
    (hr1 : recordCollection db personId a n1 today = r1)
    (hr2 : skipCollection r1.db personId n2 today = r2)
    (hr3 : recordCollection r2.db personId b n3 today = r3) :
    r3.err = none ∧
    collectedAmountOrZero (getTodayCollection r2.db personId today) = 0 ∧
    (collectionsForDate r3.db personId today).map (fun c => (c.amount, c.status)) =
      [(some b, CollectionStatus.collected)] ∧
    cycleTotalOf r2.db cy.id = some (cy.totalAmount + a) ∧
    cycleTotalOf r3.db cy.id = some (cy.totalAmount + a + b) := by
  subst hr1
  subst hr2
  subst hr3
  have hE1 : collectedAmountOrZero (getTodayCollection db personId today) = 0 := by
    unfold getTodayCollection
    rw [hfresh]
    rfl
  obtain ⟨e1err, e1people, e1active, e1coll, e1rows, e1total⟩ :=
    recordCollection_effects db personId a n1 today cy hcy hp
  rw [hE1] at e1active e1total
  have hp1 : personExists (recordCollection db personId a n1 today).db personId = true :=
    (personExists_congr _ db personId e1people).trans rfl |>.symm ▸ hp
  obtain ⟨e2err, e2people, e2cycles, e2coll⟩ :=
    skipCollection_effects (recordCollection db personId a n1 today).db personId n2 today
      (bumpTotal cy.id (a - 0) cy) e1active hp1
  have hrows2 : collectionsForDate
      (skipCollection (recordCollection db personId a n1 today).db personId n2 today).db
      personId today =
      [(⟨(recordCollection db personId a n1 today).db.nextCollectionId, personId,
        (bumpTotal cy.id (a - 0) cy).id, today, none, CollectionStatus.skipped,
        jsOrNullStr n2⟩ : Collection)] := by
    unfold collectionsForDate
    rw [e2coll]
    exact filter_replaced _ _ _ (by simp [onDate])
  have hE3 : collectedAmountOrZero (getTodayCollection
      (skipCollection (recordCollection db personId a n1 today).db personId n2 today).db
      personId today) = 0 := by
    unfold getTodayCollection
    rw [hrows2]
    simp [collectedAmountOrZero]
  have hactive2 : getActiveCycle
      (skipCollection (recordCollection db personId a n1 today).db personId n2 today).db
      personId = some (bumpTotal cy.id (a - 0) cy) :=
    (getActiveCycle_congr _ _ _ e2cycles).trans e1active
  have hp2 : personExists
      (skipCollection (recordCollection db personId a n1 today).db personId n2 today).db
      personId = true :=
    (personExists_congr _ _ personId e2people).trans hp1
  obtain ⟨e3err, e3people, e3active, e3coll, e3rows, e3total⟩ :=
    recordCollection_effects
      (skipCollection (recordCollection db personId a n1 today).db personId n2 today).db
      personId b n3 today (bumpTotal cy.id (a - 0) cy) hactive2 hp2
  rw [hE3, bumpTotal_id] at e3total
  have t0 : cycleTotalOf db cy.id = some cy.totalAmount := by
    unfold cycleTotalOf
    rw [hfind]
    rfl
  have t1 : cycleTotalOf (recordCollection db personId a n1 today).db cy.id =
      some (cy.totalAmount + (a - 0)) := by
    rw [e1total, t0]
    rfl
  have t2 : cycleTotalOf
      (skipCollection (recordCollection db personId a n1 today).db personId n2 today).db
      cy.id = some (cy.totalAmount + (a - 0)) :=
    (cycleTotalOf_congr _ _ _ e2cycles).trans t1
  have t3 : cycleTotalOf
      (recordCollection
        (skipCollection (recordCollection db personId a n1 today).db personId n2 today).db
        personId b n3 today).db cy.id =
      some (cy.totalAmount + (a - 0) + (b - 0)) := by
    rw [e3total, t2]
    rfl
  refine ⟨e3err, hE3, ?_, ?_, ?_⟩
  · rw [e3rows]
    rfl
  · rw [t2]
    norm_num
  · rw [t3]
    norm_num

theorem C10_witness :
    (recordCollection (skipCollection (recordCollection dbA 1 100 none day1).db 1 none day1).db
      1 150 none day1).err = none ∧
    collectedAmountOrZero (getTodayCollection
      (skipCollection (recordCollection dbA 1 100 none day1).db 1 none day1).db 1 day1) = 0 ∧
    (collectionsForDate (recordCollection
        (skipCollection (recordCollection dbA 1 100 none day1).db 1 none day1).db
        1 150 none day1).db 1 day1).map (fun c => (c.amount, c.status)) =
      [(some 150, CollectionStatus.collected)] ∧
    cycleTotalOf (skipCollection (recordCollection dbA 1 100 none day1).db 1 none day1).db 1 =
      some (cyA.totalAmount + 100) ∧
    cycleTotalOf (recordCollection
        (skipCollection (recordCollection dbA 1 100 none day1).db 1 none day1).db
        1 150 none day1).db 1 =
      some (cyA.totalAmount + 100 + 150) :=
  C10_skip_then_recollect dbA 1 100 150 none none none day1 cyA
    (recordCollection dbA 1 100 none day1)
    (skipCollection (recordCollection dbA 1 100 none day1).db 1 none day1)
    (recordCollection (skipCollection (recordCollection dbA 1 100 none day1).db 1 none day1).db
      1 150 none day1)
    (by decide) (by decide) (by decide) (by decide) rfl rfl rfl

/-- C4: with exactly one active cycle of total T, `processWithdrawal`
inserts a withdrawal of amount T against that cycle, closes it (isActive
false, endDate = today), installs a fresh active cycle of total 0 for the
person, and leaves the old cycle's collection rows untouched and queryable
via `getCollectionsByCycle`. -/
theorem C4_full_withdrawal (db : DB) (personId : Nat) (notes : Option String)
    (today now : String) (cy : Cycle) (r : OpResult)
    (huniq : activesFor db personId = [cy])
    (hp : personExists db personId = true)
    (hbound : ∀ c ∈ db.cycles, c.id < db.nextCycleId)
    (hr : processWithdrawal db personId notes today now = r) :
    r.err = none ∧
    r.db.withdrawals = db.withdrawals ++
      [(⟨db.nextWithdrawalId, personId, cy.id, cy.totalAmount, now,
        jsOrNullStr notes⟩ : Withdrawal)] ∧
    (∀ c ∈ r.db.cycles, c.id = cy.id → c.isActive = false ∧ c.endDate = some today) ∧
    getActiveCycle r.db personId =
      some ⟨db.nextCycleId, personId, today, none, 0, true, none, none⟩ ∧
    getCollectionsByCycle r.db cy.id = getCollectionsByCycle db cy.id := by
  have hcy : getActiveCycle db personId = some cy := by
    unfold getActiveCycle
    rw [huniq]
    rfl
  have hcymem : cy ∈ db.cycles := by
    have hm : cy ∈ activesFor db personId := by
      rw [huniq]
      exact List.mem_cons_self _ _
    exact (List.mem_filter.mp hm).1
  rw [processWithdrawal_spec db personId notes today now cy hcy hp] at hr
  subst hr
  have hclosed : (db.cycles.map (closeFn cy.id today now)).filter (activeFor personId) = [] := by
    rw [List.filter_eq_nil_iff]
    intro x hx
    obtain ⟨c0, hc0, rfl⟩ := List.mem_map.mp hx
    intro hpred
    have hpred0 : activeFor personId c0 = true := activeFor_closeFn_imp _ _ _ _ _ hpred
    have hmemact : c0 ∈ activesFor db personId := List.mem_filter.mpr ⟨hc0, hpred0⟩
    rw [huniq] at hmemact
    have hc0cy : c0 = cy := by simpa using hmemact
    rw [hc0cy] at hpred
    rw [closeFn_of_matching _ _ _ _ (beq_self_eq_true cy.id)] at hpred
    simp [activeFor] at hpred
  refine ⟨rfl, rfl, ?_, ?_, rfl⟩
  · intro c hc hcid
    rcases List.mem_append.mp hc with hmem | hmem
    · obtain ⟨c0, hc0, rfl⟩ := List.mem_map.mp hmem
      rw [closeFn_id] at hcid
      have hid : (c0.id == cy.id) = true := beq_iff_eq.mpr hcid
      rw [closeFn_of_matching _ _ _ _ hid]
      exact ⟨rfl, rfl⟩
    · have hc' : c = ⟨db.nextCycleId, personId, today, none, 0, true, none, none⟩ := by
        simpa using hmem
      subst hc'
      have hlt : cy.id < db.nextCycleId := hbound cy hcymem
      simp at hcid
      omega
  · show ((db.cycles.map (closeFn cy.id today now) ++
        [(⟨db.nextCycleId, personId, today, none, 0, true, none, none⟩ : Cycle)]).filter
        (activeFor personId)).head? = _
    rw [List.filter_append, hclosed]
    simp [activeFor]

theorem C4_witness :
    (processWithdrawal dbB 1 none day1 day1).err = none ∧
    (processWithdrawal dbB 1 none day1 day1).db.withdrawals = dbB.withdrawals ++
      [(⟨dbB.nextWithdrawalId, 1, cyB.id, cyB.totalAmount, day1, jsOrNullStr none⟩ :
        Withdrawal)] ∧
    (∀ c ∈ (processWithdrawal dbB 1 none day1 day1).db.cycles,
      c.id = cyB.id → c.isActive = false ∧ c.endDate = some day1) ∧
    getActiveCycle (processWithdrawal dbB 1 none day1 day1).db 1 =
      some ⟨dbB.nextCycleId, 1, day1, none, 0, true, none, none⟩ ∧
    getCollectionsByCycle (processWithdrawal dbB 1 none day1 day1).db cyB.id =
      getCollectionsByCycle dbB cyB.id :=
  C4_full_withdrawal dbB 1 none day1 day1 cyB (processWithdrawal dbB 1 none day1 day1)
    (by decide) (by decide) (by decide) rfl

/-- C2, failing input: starting from a freshly added person (cycle total 0,
all totals non-negative), the engine sequence collect 100, partial-withdraw
100, undo today's collection drives the active cycle's total to -100: the
undo subtracts the collected amount even though the balance was already
withdrawn, so the no-negative-balance property claimed by the spec does not
hold of the code. -/
theorem C2_negative_balance_reachable :
    cycleTotalOf dbA 1 = some 0 ∧
    (recordCollection dbA 1 100 none day1).err = none ∧
    cycleTotalOf (recordCollection dbA 1 100 none day1).db 1 = some 100 ∧
    (processPartialWithdrawal (recordCollection dbA 1 100 none day1).db 1 100 none day1).err =
      none ∧
    cycleTotalOf
      (processPartialWithdrawal (recordCollection dbA 1 100 none day1).db 1 100 none day1).db
      1 = some 0 ∧
    cycleTotalOf (undoCollection
      (processPartialWithdrawal (recordCollection dbA 1 100 none day1).db 1 100 none day1).db
      1 day1).db 1 = some (-100) := by
  decide

-- ======================
-- Preservation machinery for the at-most-one-active-cycle invariant (C3)
-- ======================

lemma bumpTotal_personId (cycleId : Nat) (delta : Int) (c : Cycle) :
    (bumpTotal cycleId delta c).personId = c.personId := by
  unfold bumpTotal; split <;> rfl

lemma cutTotal_personId (cycleId : Nat) (amt : Int) (c : Cycle) :
    (cutTotal cycleId amt c).personId = c.personId := by
  unfold cutTotal; split <;> rfl

lemma length_filter_map_le {α : Type} (p : α → Bool) (g : α → α)
    (h : ∀ x, p (g x) = true → p x = true) (l : List α) :
    ((l.map g).filter p).length ≤ (l.filter p).length := by
  induction l with
  | nil => exact Nat.le_refl 0
  | cons a t ih =>
    simp only [List.map_cons, List.filter_cons]
    cases hga : p (g a) with
    | true =>
      rw [h a hga]
      simpa using ih
    | false =>
      cases hpa : p a
      · simpa using ih
      · simp only [List.length_cons]
        exact Nat.le_succ_of_le ih

lemma activesFor_singleton (db : DB) (personId : Nat) (cy : Cycle)
    (hcy : getActiveCycle db personId = some cy)
    (hinv : AtMostOneActive db) :
    activesFor db personId = [cy] := by
  unfold getActiveCycle at hcy
  have hlen := hinv personId
  cases hl : activesFor db personId with
  | nil => rw [hl] at hcy; cases hcy
  | cons a t =>
    rw [hl, List.head?_cons] at hcy
    injection hcy with h2
    rw [hl] at hlen
    simp only [List.length_cons] at hlen
    have ht : t = [] := by
      cases t with
      | nil => rfl
      | cons b u => simp at hlen
    rw [h2, ht]

/-- After closing the unique active cycle of a person, the person has no
active cycle left. -/
lemma closed_filter_nil (db : DB) (personId : Nat) (cy : Cycle)
    (today now : String)
    (huniq : activesFor db personId = [cy]) :
    (db.cycles.map (closeFn cy.id today now)).filter (activeFor personId) = [] := by
  rw [List.filter_eq_nil_iff]
  intro x hx
  obtain ⟨c0, hc0, rfl⟩ := List.mem_map.mp hx
  intro hpred
  have hpred0 : activeFor personId c0 = true := activeFor_closeFn_imp _ _ _ _ _ hpred
  have hmemact : c0 ∈ activesFor db personId := List.mem_filter.mpr ⟨hc0, hpred0⟩
  rw [huniq] at hmemact
  have hc0cy : c0 = cy := by simpa using hmemact
  rw [hc0cy] at hpred
  rw [closeFn_of_matching _ _ _ _ (beq_self_eq_true cy.id)] at hpred
  simp [activeFor] at hpred

/-- A closed cycle map can only lower the count of active cycles. -/
lemma closed_count_le (db : DB) (cycleId : Nat) (today now : String) (personId : Nat) :
    ((db.cycles.map (closeFn cycleId today now)).filter (activeFor personId)).length ≤
      (activesFor db personId).length :=
  length_filter_map_le _ _ (activeFor_closeFn_imp personId cycleId today now) db.cycles

lemma createCycle_ok (db : DB) (personId : Nat) (today : String)
    (hp : personExists db personId = true) :
    createCycle db personId today = Except.ok (db.nextCycleId,
      { db with
          cycles := db.cycles ++
            [(⟨db.nextCycleId, personId, today, none, 0, true, none, none⟩ : Cycle)],
          nextCycleId := db.nextCycleId + 1 }) := by
  unfold createCycle
  simp [hp]

lemma recordCollection_noperson (db : DB) (personId : Nat) (a : Int)
    (notes : Option String) (today : String)
    (hp : personExists db personId = false) :
    (recordCollection db personId a notes today).db = db := by
  cases hcy : getActiveCycle db personId with
  | some cy => simp [recordCollection, hcy, insertOrReplaceCollection, hp]
  | none => simp [recordCollection, hcy, createCycle, hp]

lemma skipCollection_noperson (db : DB) (personId : Nat)
    (notes : Option String) (today : String)
    (hp : personExists db personId = false) :
    (skipCollection db personId notes today).db = db := by
  cases hcy : getActiveCycle db personId with
  | some cy => simp [skipCollection, hcy, insertOrReplaceCollection, hp]
  | none => simp [skipCollection, hcy, createCycle, hp]

lemma processWithdrawal_noperson (db : DB) (personId : Nat)
    (notes : Option String) (today now : String)
    (hp : personExists db personId = false) :
    (processWithdrawal db personId notes today now).db = db := by
  cases hcy : getActiveCycle db personId with
  | some cy => simp [processWithdrawal, hcy, insertWithdrawal, hp]
  | none => simp [processWithdrawal, hcy]

lemma processPartialWithdrawal_noperson (db : DB) (personId : Nat) (a : Int)
    (notes : Option String) (now : String)
    (hp : personExists db personId = false) :
    (processPartialWithdrawal db personId a notes now).db = db := by
  cases hcy : getActiveCycle db personId with
  | some cy =>
    by_cases hgt : a > cy.totalAmount
    · rw [processPartialWithdrawal_reject db personId a notes now cy hcy hgt]
    · simp [processPartialWithdrawal, hcy, insertWithdrawal, hp, if_neg hgt]
  | none => simp [processPartialWithdrawal, hcy]

lemma insertOrReplaceCollection_ok (db : DB) (personId cycleId : Nat) (date : String)
    (amount : Option Int) (status : CollectionStatus) (notes : Option String)
    (hp : personExists db personId = true) (hex : cycleExists db cycleId = true) :
    insertOrReplaceCollection db personId cycleId date amount status notes =
      Except.ok
        { db with
            collections :=
              db.collections.filter (fun c => !(onDate personId date c)) ++
                [(⟨db.nextCollectionId, personId, cycleId, date, amount, status,
                  notes⟩ : Collection)],
            nextCollectionId := db.nextCollectionId + 1 } := by
  unfold insertOrReplaceCollection
  simp [hp, hex]

/-- Components of `recordCollection` in the lazy-cycle-creation branch. -/
lemma recordCollection_lazy_core (db : DB) (personId : Nat) (a : Int)
    (notes : Option String) (today : String)
    (hnone : getActiveCycle db personId = none)
    (hp : personExists db personId = true) :
    (recordCollection db personId a notes today).db.people = db.people ∧
    (recordCollection db personId a notes today).db.nextPersonId = db.nextPersonId ∧
    ∃ delta, (recordCollection db personId a notes today).db.cycles =
      (db.cycles ++ [(⟨db.nextCycleId, personId, today, none, 0, true, none, none⟩ : Cycle)]).map
        (bumpTotal db.nextCycleId delta) := by
  simp only [recordCollection, hnone, createCycle_ok db personId today hp]
  rw [insertOrReplaceCollection_ok]
  · exact ⟨rfl, rfl, ⟨_, rfl⟩⟩
  · exact hp
  · simp [cycleExists, List.any_append]

/-- Components of `skipCollection` in the lazy-cycle-creation branch. -/
lemma skipCollection_lazy_core (db : DB) (personId : Nat)
    (notes : Option String) (today : String)
    (hnone : getActiveCycle db personId = none)
    (hp : personExists db personId = true) :
    (skipCollection db personId notes today).db.people = db.people ∧
    (skipCollection db personId notes today).db.nextPersonId = db.nextPersonId ∧
    (skipCollection db personId notes today).db.cycles =
      db.cycles ++ [(⟨db.nextCycleId, personId, today, none, 0, true, none, none⟩ : Cycle)] := by
  simp only [skipCollection, hnone, createCycle_ok db personId today hp]
  rw [insertOrReplaceCollection_ok]
  · exact ⟨rfl, rfl, rfl⟩
  · exact hp
  · simp [cycleExists, List.any_append]

/-- Components of `addPerson`. -/
lemma addPerson_core (db : DB) (input : PersonInput) (today : String) :
    (addPerson db input today).db.people = db.people ++
      [(⟨db.nextPersonId, input.name, jsOrNullStr input.phone, jsOrNullStr input.location,
        jsOrNullStr input.photoPath, input.defaultAmount,
        jsStrOr (match input.frequency with | some s => s | none => "") "daily",
        jsOrNullStr input.notes, input.isActive⟩ : Person)] ∧
    (addPerson db input today).db.cycles = db.cycles ++
      [(⟨db.nextCycleId, db.nextPersonId, today, none, 0, true, none, none⟩ : Cycle)] ∧
    (addPerson db input today).db.nextPersonId = db.nextPersonId + 1 := by
  unfold addPerson
  dsimp only
  rw [createCycle_ok]
  · exact ⟨rfl, rfl, rfl⟩
  · simp [personExists, List.any_append]

-- State-shape preservation lemmas: WF and AtMostOneActive only inspect
-- people, cycles and the people counter.

lemma preserve_eq (db R : DB)
    (hRp : R.people = db.people) (hRc : R.cycles = db.cycles)
    (hRn : R.nextPersonId = db.nextPersonId)
    (hwf : WF db) (hinv : AtMostOneActive db) :
    WF R ∧ AtMostOneActive R := by
  refine ⟨⟨?_, ?_⟩, ?_⟩
  · intro p hp
    rw [hRp] at hp
    rw [hRn]
    exact hwf.1 p hp
  · intro c hc
    rw [hRc] at hc
    rw [hRp]
    exact hwf.2 c hc
  · intro q
    unfold AtMostOneActive activesFor at *
    rw [hRc]
    exact hinv q

lemma preserve_map (db R : DB) (g : Cycle → Cycle)
    (hg : ∀ c, (g c).personId = c.personId)
    (hg2 : ∀ q c, activeFor q (g c) = activeFor q c)
    (hRp : R.people = db.people) (hRc : R.cycles = db.cycles.map g)
    (hRn : R.nextPersonId = db.nextPersonId)
    (hwf : WF db) (hinv : AtMostOneActive db) :
    WF R ∧ AtMostOneActive R := by
  refine ⟨⟨?_, ?_⟩, ?_⟩
  · intro p hp
    rw [hRp] at hp
    rw [hRn]
    exact hwf.1 p hp
  · intro c hc
    rw [hRc] at hc
    obtain ⟨c0, h0, rfl⟩ := List.mem_map.mp hc
    rw [hRp, hg]
    exact hwf.2 c0 h0
  · intro q
    unfold AtMostOneActive activesFor at *
    rw [hRc, filter_map_of_pred_eq _ _ (fun c => hg2 q c) db.cycles, List.length_map]
    exact hinv q

/-- No cycle of a reachable well-formed state is active for a person id at or
above the people counter. -/
lemma activesFor_fresh_nil (db : DB) (q : Nat) (hq : db.nextPersonId ≤ q)
    (hwf : WF db) : activesFor db q = [] := by
  unfold activesFor
  rw [List.filter_eq_nil_iff]
  intro c hc hpred
  obtain ⟨p, hpm, hpid⟩ := hwf.2 c hc
  have hple := hwf.1 p hpm
  unfold activeFor at hpred
  have : (c.personId == q) = true := (Bool.and_eq_true _ _ |>.mp hpred).1
  have hcq : c.personId = q := beq_iff_eq.mp this
  omega

lemma preserve_append (db R : DB) (newPid cid : Nat) (sd : String)
    (hempty : activesFor db newPid = [])
    (hpex : personExists db newPid = true)
    (hRp : R.people = db.people)
    (hRc : R.cycles = db.cycles ++ [(⟨cid, newPid, sd, none, 0, true, none, none⟩ : Cycle)])
    (hRn : R.nextPersonId = db.nextPersonId)
    (hwf : WF db) (hinv : AtMostOneActive db) :
    WF R ∧ AtMostOneActive R := by
  refine ⟨⟨?_, ?_⟩, ?_⟩
  · intro p hp
    rw [hRp] at hp
    rw [hRn]
    exact hwf.1 p hp
  · intro c hc
    rw [hRc] at hc
    rw [hRp]
    rcases List.mem_append.mp hc with hmem | hmem
    · exact hwf.2 c hmem
    · obtain ⟨p, hpm, hpb⟩ := List.any_eq_true.mp hpex
      have hc' : c = ⟨cid, newPid, sd, none, 0, true, none, none⟩ := by simpa using hmem
      subst hc'
      exact ⟨p, hpm, beq_iff_eq.mp hpb⟩
  · intro q
    unfold AtMostOneActive activesFor at *
    rw [hRc, List.filter_append]
    by_cases hq : newPid = q
    · subst hq
      rw [show db.cycles.filter (activeFor newPid) = [] from hempty]
      simp [activeFor]
    · have : activeFor q (⟨cid, newPid, sd, none, 0, true, none, none⟩ : Cycle) = false := by
        simp [activeFor, hq]
      simp only [List.filter_cons, this, Bool.false_eq_true, if_false,
        List.filter_nil, List.append_nil]
      exact hinv q

lemma preserve_append_map (db R : DB) (newPid cid cid2 : Nat) (sd : String) (delta : Int)
    (hempty : activesFor db newPid = [])
    (hpex : personExists db newPid = true)
    (hRp : R.people = db.people)
    (hRc : R.cycles = (db.cycles ++
      [(⟨cid, newPid, sd, none, 0, true, none, none⟩ : Cycle)]).map (bumpTotal cid2 delta))
    (hRn : R.nextPersonId = db.nextPersonId)
    (hwf : WF db) (hinv : AtMostOneActive db) :
    WF R ∧ AtMostOneActive R := by
  refine ⟨⟨?_, ?_⟩, ?_⟩
  · intro p hp
    rw [hRp] at hp
    rw [hRn]
    exact hwf.1 p hp
  · intro c hc
    rw [hRc] at hc
    obtain ⟨c0, h0, rfl⟩ := List.mem_map.mp hc
    rw [hRp, bumpTotal_personId]
    rcases List.mem_append.mp h0 with hmem | hmem
    · exact hwf.2 c0 hmem
    · obtain ⟨p, hpm, hpb⟩ := List.any_eq_true.mp hpex
      have hc' : c0 = ⟨cid, newPid, sd, none, 0, true, none, none⟩ := by simpa using hmem
      subst hc'
      exact ⟨p, hpm, beq_iff_eq.mp hpb⟩
  · intro q
    unfold AtMostOneActive activesFor at *
    rw [hRc, filter_map_of_pred_eq _ _ (activeFor_bumpTotal q cid2 delta) _,
      List.length_map, List.filter_append]
    by_cases hq : newPid = q
    · subst hq
      rw [show db.cycles.filter (activeFor newPid) = [] from hempty]
      simp [activeFor]
    · have : activeFor q (⟨cid, newPid, sd, none, 0, true, none, none⟩ : Cycle) = false := by
        simp [activeFor, hq]
      simp only [List.filter_cons, this, Bool.false_eq_true, if_false,
        List.filter_nil, List.append_nil]
      exact hinv q

lemma preserve_withdraw (db R : DB) (personId cid : Nat) (cy : Cycle) (today now : String)
    (huniq : activesFor db personId = [cy])
    (hpex : personExists db personId = true)
    (hRp : R.people = db.people)
    (hRc : R.cycles = db.cycles.map (closeFn cy.id today now) ++
      [(⟨cid, personId, today, none, 0, true, none, none⟩ : Cycle)])
    (hRn : R.nextPersonId = db.nextPersonId)
    (hwf : WF db) (hinv : AtMostOneActive db) :
    WF R ∧ AtMostOneActive R := by
  refine ⟨⟨?_, ?_⟩, ?_⟩
  · intro p hp
    rw [hRp] at hp
    rw [hRn]
    exact hwf.1 p hp
  · intro c hc
    rw [hRc] at hc
    rw [hRp]
    rcases List.mem_append.mp hc with hmem | hmem
    · obtain ⟨c0, h0, rfl⟩ := List.mem_map.mp hmem
      rw [closeFn_personId]
      exact hwf.2 c0 h0
    · obtain ⟨p, hpm, hpb⟩ := List.any_eq_true.mp hpex
      have hc' : c = ⟨cid, personId, today, none, 0, true, none, none⟩ := by simpa using hmem
      subst hc'
      exact ⟨p, hpm, beq_iff_eq.mp hpb⟩
  · intro q
    unfold AtMostOneActive activesFor at *
    rw [hRc, List.filter_append]
    by_cases hq : personId = q
    · subst hq
      rw [closed_filter_nil db personId cy today now huniq]
      simp [activeFor]
    · have hnew : activeFor q (⟨cid, personId, today, none, 0, true, none, none⟩ : Cycle) = false := by
        simp [activeFor, hq]
      simp only [List.filter_cons, hnew, Bool.false_eq_true, if_false,
        List.filter_nil, List.append_nil]
      calc ((db.cycles.map (closeFn cy.id today now)).filter (activeFor q)).length ≤
          (db.cycles.filter (activeFor q)).length := closed_count_le db cy.id today now q
        _ ≤ 1 := hinv q

lemma addPerson_preserves (db : DB) (input : PersonInput) (today : String)
    (hwf : WF db) (hinv : AtMostOneActive db) :
    WF (addPerson db input today).db ∧ AtMostOneActive (addPerson db input today).db := by
  obtain ⟨hpe, hcy, hnp⟩ := addPerson_core db input today
  refine ⟨⟨?_, ?_⟩, ?_⟩
  · intro p hp
    rw [hpe] at hp
    rw [hnp]
    rcases List.mem_append.mp hp with hm | hm
    · exact Nat.lt_succ_of_lt (hwf.1 p hm)
    · have hp' : p = ⟨db.nextPersonId, input.name, jsOrNullStr input.phone,
          jsOrNullStr input.location, jsOrNullStr input.photoPath, input.defaultAmount,
          jsStrOr (match input.frequency with | some s => s | none => "") "daily",
          jsOrNullStr input.notes, input.isActive⟩ := by simpa using hm
      rw [hp']
      exact Nat.lt_succ_self _
  · intro c hc
    rw [hcy] at hc
    rw [hpe]
    rcases List.mem_append.mp hc with hm | hm
    · obtain ⟨p, hpm, hpid⟩ := hwf.2 c hm
      exact ⟨p, List.mem_append_left _ hpm, hpid⟩
    · have hc' : c = ⟨db.nextCycleId, db.nextPersonId, today, none, 0, true, none, none⟩ := by
        simpa using hm
      rw [hc']
      refine ⟨⟨db.nextPersonId, input.name, jsOrNullStr input.phone,
        jsOrNullStr input.location, jsOrNullStr input.photoPath, input.defaultAmount,
        jsStrOr (match input.frequency with | some s => s | none => "") "daily",
        jsOrNullStr input.notes, input.isActive⟩, ?_, rfl⟩
      exact List.mem_append_right _ (List.mem_singleton.mpr rfl)
  · intro q
    show (((addPerson db input today).db.cycles).filter (activeFor q)).length ≤ 1
    rw [hcy, List.filter_append]
    by_cases hq : db.nextPersonId = q
    · subst hq
      have hnil : db.cycles.filter (activeFor db.nextPersonId) = [] :=
        activesFor_fresh_nil db _ (Nat.le_refl _) hwf
      rw [hnil]
      simp [activeFor]
    · have hnew : activeFor q
          (⟨db.nextCycleId, db.nextPersonId, today, none, 0, true, none, none⟩ : Cycle) =
          false := by
        simp [activeFor, hq]
      simp only [List.filter_cons, hnew, Bool.false_eq_true, if_false,
        List.filter_nil, List.append_nil]
      exact hinv q

lemma recordCollection_preserves (db : DB) (personId : Nat) (a : Int)
    (notes : Option String) (today : String)
    (hwf : WF db) (hinv : AtMostOneActive db) :
    WF (recordCollection db personId a notes today).db ∧
      AtMostOneActive (recordCollection db personId a notes today).db := by
  cases hp : personExists db personId with
  | false =>
    rw [recordCollection_noperson db personId a notes today hp]
    exact ⟨hwf, hinv⟩
  | true =>
    cases hcy : getActiveCycle db personId with
    | some cy =>
      have hspec := recordCollection_spec db personId a notes today cy hcy hp
      exact preserve_map db _
        (bumpTotal cy.id (a - collectedAmountOrZero (getTodayCollection db personId today)))
        (fun c => bumpTotal_personId _ _ c)
        (fun q c => activeFor_bumpTotal q _ _ c)
        (by rw [hspec]; rfl) (by rw [hspec]; rfl) (by rw [hspec]; rfl) hwf hinv
    | none =>
      obtain ⟨h1, h2, delta, h3⟩ := recordCollection_lazy_core db personId a notes today hcy hp
      have hempty : activesFor db personId = [] := List.head?_eq_none_iff.mp hcy
      exact preserve_append_map db _ personId db.nextCycleId db.nextCycleId today delta
        hempty hp h1 h3 h2 hwf hinv

lemma skipCollection_preserves (db : DB) (personId : Nat)
    (notes : Option String) (today : String)
    (hwf : WF db) (hinv : AtMostOneActive db) :
    WF (skipCollection db personId notes today).db ∧
      AtMostOneActive (skipCollection db personId notes today).db := by
  cases hp : personExists db personId with
  | false =>
    rw [skipCollection_noperson db personId notes today hp]
    exact ⟨hwf, hinv⟩
  | true =>
    cases hcy : getActiveCycle db personId with
    | some cy =>
      have hspec := skipCollection_spec db personId notes today cy hcy hp
      exact preserve_eq db _ (by rw [hspec]) (by rw [hspec]) (by rw [hspec]) hwf hinv
    | none =>
      obtain ⟨h1, h2, h3⟩ := skipCollection_lazy_core db personId notes today hcy hp
      have hempty : activesFor db personId = [] := List.head?_eq_none_iff.mp hcy
      exact preserve_append db _ personId db.nextCycleId today hempty hp h1 h3 h2 hwf hinv

lemma undoCollection_core (db : DB) (personId : Nat) (today : String) :
    (undoCollection db personId today).db.people = db.people ∧
    (undoCollection db personId today).db.nextPersonId = db.nextPersonId ∧
    ((undoCollection db personId today).db.cycles = db.cycles ∨
      ∃ cid amt, (undoCollection db personId today).db.cycles = db.cycles.map (cutTotal cid amt)) := by
  unfold undoCollection
  dsimp only
  split
  · split
    · exact ⟨rfl, rfl, Or.inr ⟨_, _, rfl⟩⟩
    · exact ⟨rfl, rfl, Or.inl rfl⟩
  · exact ⟨rfl, rfl, Or.inl rfl⟩

lemma undoCollection_preserves (db : DB) (personId : Nat) (today : String)
    (hwf : WF db) (hinv : AtMostOneActive db) :
    WF (undoCollection db personId today).db ∧
      AtMostOneActive (undoCollection db personId today).db := by
  obtain ⟨h1, h2, h3 | ⟨cid, amt, h3⟩⟩ := undoCollection_core db personId today
  · exact preserve_eq db _ h1 h3 h2 hwf hinv
  · exact preserve_map db _ (cutTotal cid amt)
      (fun c => cutTotal_personId _ _ c)
      (fun q c => activeFor_cutTotal q _ _ c) h1 h3 h2 hwf hinv

lemma processPartialWithdrawal_core (db : DB) (personId : Nat) (a : Int)
    (notes : Option String) (now : String) :
    (processPartialWithdrawal db personId a notes now).db.people = db.people ∧
    (processPartialWithdrawal db personId a notes now).db.nextPersonId = db.nextPersonId ∧
    ((processPartialWithdrawal db personId a notes now).db.cycles = db.cycles ∨
      ∃ cid amt, (processPartialWithdrawal db personId a notes now).db.cycles =
        db.cycles.map (cutTotal cid amt)) := by
  unfold processPartialWithdrawal
  split
  · exact ⟨rfl, rfl, Or.inl rfl⟩
  · split
    · exact ⟨rfl, rfl, Or.inl rfl⟩
    · split
      · exact ⟨rfl, rfl, Or.inl rfl⟩
      · rename_i cycle hgt db1 heq
        unfold insertWithdrawal at heq
        split at heq
        · injection heq with heq2
          rw [← heq2]
          exact ⟨rfl, rfl, Or.inr ⟨_, _, rfl⟩⟩
        · cases heq

lemma processPartialWithdrawal_preserves (db : DB) (personId : Nat) (a : Int)
    (notes : Option String) (now : String)
    (hwf : WF db) (hinv : AtMostOneActive db) :
    WF (processPartialWithdrawal db personId a notes now).db ∧
      AtMostOneActive (processPartialWithdrawal db personId a notes now).db := by
  obtain ⟨h1, h2, h3 | ⟨cid, amt, h3⟩⟩ := processPartialWithdrawal_core db personId a notes now
  · exact preserve_eq db _ h1 h3 h2 hwf hinv
  · exact preserve_map db _ (cutTotal cid amt)
      (fun c => cutTotal_personId _ _ c)
      (fun q c => activeFor_cutTotal q _ _ c) h1 h3 h2 hwf hinv

lemma processWithdrawal_preserves (db : DB) (personId : Nat)
    (notes : Option String) (today now : String)
    (hwf : WF db) (hinv : AtMostOneActive db) :
    WF (processWithdrawal db personId notes today now).db ∧
      AtMostOneActive (processWithdrawal db personId notes today now).db := by
  cases hp : personExists db personId with
  | false =>
    rw [processWithdrawal_noperson db personId notes today now hp]
    exact ⟨hwf, hinv⟩
  | true =>
    cases hcy : getActiveCycle db personId with
    | none =>
      have h : (processWithdrawal db personId notes today now).db = db := by
        simp [processWithdrawal, hcy]
      rw [h]
      exact ⟨hwf, hinv⟩
    | some cy =>
      have huniq : activesFor db personId = [cy] := activesFor_singleton db personId cy hcy hinv
      have hspec := processWithdrawal_spec db personId notes today now cy hcy hp
      exact preserve_withdraw db _ personId db.nextCycleId cy today now huniq hp
        (by rw [hspec]) (by rw [hspec]) (by rw [hspec]) hwf hinv

lemma deletePerson_preserves (db : DB) (personId : Nat)
    (hwf : WF db) (hinv : AtMostOneActive db) :
    WF (deletePerson db personId) ∧ AtMostOneActive (deletePerson db personId) := by
  refine ⟨⟨?_, ?_⟩, ?_⟩
  · intro p hp
    obtain ⟨p0, h0, rfl⟩ := List.mem_map.mp hp
    have hlt := hwf.1 p0 h0
    by_cases hid : (p0.id == personId) = true <;> simp [hid] <;> exact hlt
  · intro c hc
    obtain ⟨p0, h0, hpid⟩ := hwf.2 c hc
    refine ⟨if p0.id == personId then { p0 with isActive := false } else p0, ?_, ?_⟩
    · exact List.mem_map.mpr ⟨p0, h0, rfl⟩
    · by_cases hid : (p0.id == personId) = true <;> simp [hid] <;> exact hpid
  · exact hinv

lemma applyOp_preserves (today : String) (op : Op) (db : DB)
    (hwf : WF db) (hinv : AtMostOneActive db) :
    WF (applyOp today db op) ∧ AtMostOneActive (applyOp today db op) := by
  cases op with
  | addP input => exact addPerson_preserves db input today hwf hinv
  | record personId amount => exact recordCollection_preserves db personId amount none today hwf hinv
  | skip personId => exact skipCollection_preserves db personId none today hwf hinv
  | undo personId => exact undoCollection_preserves db personId today hwf hinv
  | withdraw personId => exact processWithdrawal_preserves db personId none today today hwf hinv
  | pwithdraw personId amount =>
    exact processPartialWithdrawal_preserves db personId amount none today hwf hinv
  | delP personId => exact deletePerson_preserves db personId hwf hinv

/-- C3: starting from a well-formed state (autoincrement counter above all
stored person ids, cycles referencing existing people — facts SQLite's
PRIMARY KEY AUTOINCREMENT and enforced FOREIGN KEYs guarantee of every
reachable database) in which every person has at most one active cycle,
any sequence of engine operations preserves the at-most-one-active-cycle
invariant; quantifying over all sequences gives it after every step. -/
theorem C3_at_most_one_active_cycle (today : String) (ops : List Op) (db : DB)
    (hwf : WF db) (hinv : AtMostOneActive db) :
    AtMostOneActive (ops.foldl (applyOp today) db) := by
  induction ops generalizing db with
  | nil => exact hinv
  | cons op rest ih =>
    obtain ⟨hwf2, hinv2⟩ := applyOp_preserves today op db hwf hinv
    exact ih _ hwf2 hinv2

theorem C3_witness :
    AtMostOneActive (List.foldl (applyOp day1) dbA
      [Op.record 1 100, Op.pwithdraw 1 50, Op.withdraw 1, Op.skip 1, Op.undo 1,
       Op.addP personA, Op.delP 1, Op.record 2 75]) :=
  C3_at_most_one_active_cycle day1
    [Op.record 1 100, Op.pwithdraw 1 50, Op.withdraw 1, Op.skip 1, Op.undo 1,
     Op.addP personA, Op.delP 1, Op.record 2 75] dbA
    (by constructor
        · decide
        · decide)
    (fun q => Nat.le_trans (List.length_filter_le _ _) (by decide))

-- ======================
-- Restore/import analysis (C8)
-- ======================

lemma importColl_fold (personId cycleId : Nat) (l : List Collection) (d : DB) :
    (l.foldl (importCollectionRow personId cycleId) d).cycles = d.cycles ∧
    (l.foldl (importCollectionRow personId cycleId) d).withdrawals = d.withdrawals ∧
    (l.foldl (importCollectionRow personId cycleId) d).people = d.people ∧
    ∀ c ∈ (l.foldl (importCollectionRow personId cycleId) d).collections,
      c ∈ d.collections ∨ (c.cycleId = cycleId ∧ c.personId = personId) := by
  induction l generalizing d with
  | nil => exact ⟨rfl, rfl, rfl, fun c hc => Or.inl hc⟩
  | cons x xs ih =>
    simp only [List.foldl_cons]
    obtain ⟨ha, hb, hc, hd⟩ := ih (importCollectionRow personId cycleId d x)
    refine ⟨ha.trans rfl, hb.trans rfl, hc.trans rfl, ?_⟩
    intro c hcm
    rcases hd c hcm with hm | hm
    · rcases List.mem_append.mp hm with h1 | h1
      · exact Or.inl h1
      · have hcx : c = ⟨d.nextCollectionId, personId, cycleId, x.date,
            some (jsOptIntOr x.amount 0), x.status, jsOrNullStr x.notes⟩ := by
          simpa using h1
        rw [hcx]
        exact Or.inr ⟨rfl, rfl⟩
    · exact Or.inr hm

lemma importWith_fold (personId cycleId : Nat) (today : String)
    (l : List Withdrawal) (d : DB) :
    (l.foldl (importWithdrawalRow personId cycleId today) d).cycles = d.cycles ∧
    (l.foldl (importWithdrawalRow personId cycleId today) d).collections = d.collections ∧
    (l.foldl (importWithdrawalRow personId cycleId today) d).people = d.people ∧
    ∀ w ∈ (l.foldl (importWithdrawalRow personId cycleId today) d).withdrawals,
      w ∈ d.withdrawals ∨ (w.cycleId = cycleId ∧ w.personId = personId) := by
  induction l generalizing d with
  | nil => exact ⟨rfl, rfl, rfl, fun w hw => Or.inl hw⟩
  | cons x xs ih =>
    simp only [List.foldl_cons]
    obtain ⟨ha, hb, hc, hd⟩ := ih (importWithdrawalRow personId cycleId today d x)
    refine ⟨ha.trans rfl, hb.trans rfl, hc.trans rfl, ?_⟩
    intro w hwm
    rcases hd w hwm with hm | hm
    · rcases List.mem_append.mp hm with h1 | h1
      · exact Or.inl h1
      · have hwx : w = ⟨d.nextWithdrawalId, personId, cycleId, jsIntOr x.amount 0,
            jsStrOr x.date today, jsOrNullStr x.notes⟩ := by
          simpa using h1
        rw [hwx]
        exact Or.inr ⟨rfl, rfl⟩
    · exact Or.inr hm

lemma importPerson_step (today : String) (d : DB) (pd : DumpPerson)
    (ht : Threaded d) :
    Threaded (importPerson today d pd) ∧
    (importPerson today d pd).people.length = d.people.length + 1 ∧
    (importPerson today d pd).cycles.length = d.cycles.length + 1 := by
  unfold importPerson
  dsimp only
  obtain ⟨c_cy, c_wd, c_pe, c_mem⟩ :=
    importColl_fold d.nextPersonId (importPersonRow d pd).nextCycleId pd.collections
      (importActiveCycleRow (importPersonRow d pd) pd d.nextPersonId today)
  obtain ⟨w_cy, w_co, w_pe, w_mem⟩ :=
    importWith_fold d.nextPersonId (importPersonRow d pd).nextCycleId today pd.withdrawals
      (pd.collections.foldl
        (importCollectionRow d.nextPersonId (importPersonRow d pd).nextCycleId)
        (importActiveCycleRow (importPersonRow d pd) pd d.nextPersonId today))
  have hcycles : (pd.withdrawals.foldl
      (importWithdrawalRow d.nextPersonId (importPersonRow d pd).nextCycleId today)
      (pd.collections.foldl
        (importCollectionRow d.nextPersonId (importPersonRow d pd).nextCycleId)
        (importActiveCycleRow (importPersonRow d pd) pd d.nextPersonId today))).cycles =
      d.cycles ++
        [(⟨(importPersonRow d pd).nextCycleId, d.nextPersonId,
          (match pd.activeCycle with
           | some c => jsStrOr c.startDate today
           | none => today), none,
          (match pd.activeCycle with
           | some c => jsIntOr c.totalAmount 0
           | none => 0), true, none, none⟩ : Cycle)] :=
    (w_cy.trans c_cy).trans rfl
  have hnewmem : (⟨(importPersonRow d pd).nextCycleId, d.nextPersonId,
      (match pd.activeCycle with
       | some c => jsStrOr c.startDate today
       | none => today), none,
      (match pd.activeCycle with
       | some c => jsIntOr c.totalAmount 0
       | none => 0), true, none, none⟩ : Cycle) ∈
      d.cycles ++
        [(⟨(importPersonRow d pd).nextCycleId, d.nextPersonId,
          (match pd.activeCycle with
           | some c => jsStrOr c.startDate today
           | none => today), none,
          (match pd.activeCycle with
           | some c => jsIntOr c.totalAmount 0
           | none => 0), true, none, none⟩ : Cycle)] :=
    List.mem_append_right _ (List.mem_singleton.mpr rfl)
  refine ⟨⟨?_, ?_⟩, ?_, ?_⟩
  · intro c hcm
    rw [w_co] at hcm
    rcases c_mem c hcm with hold | ⟨hcid, hpid⟩
    · obtain ⟨cy, hcym, h1, h2, h3⟩ := ht.1 c hold
      refine ⟨cy, ?_, h1, h2, h3⟩
      rw [hcycles]
      exact List.mem_append_left _ hcym
    · refine ⟨⟨(importPersonRow d pd).nextCycleId, d.nextPersonId,
        (match pd.activeCycle with
         | some cc => jsStrOr cc.startDate today
         | none => today), none,
        (match pd.activeCycle with
         | some cc => jsIntOr cc.totalAmount 0
         | none => 0), true, none, none⟩, ?_, ?_, ?_, rfl⟩
      · rw [hcycles]
        exact hnewmem
      · exact hcid.symm
      · exact hpid.symm
  · intro w hwm
    rcases w_mem w hwm with hold | ⟨hcid, hpid⟩
    · rw [c_wd] at hold
      obtain ⟨cy, hcym, h1, h2, h3⟩ := ht.2 w hold
      refine ⟨cy, ?_, h1, h2, h3⟩
      rw [hcycles]
      exact List.mem_append_left _ hcym
    · refine ⟨⟨(importPersonRow d pd).nextCycleId, d.nextPersonId,
        (match pd.activeCycle with
         | some cc => jsStrOr cc.startDate today
         | none => today), none,
        (match pd.activeCycle with
         | some cc => jsIntOr cc.totalAmount 0
         | none => 0), true, none, none⟩, ?_, ?_, ?_, rfl⟩
      · rw [hcycles]
        exact hnewmem
      · exact hcid.symm
      · exact hpid.symm
  · rw [w_pe, c_pe]
    show (d.people ++ [_]).length = d.people.length + 1
    simp
  · rw [hcycles]
    simp

lemma import_fold_threaded (today : String) (l : List DumpPerson) (d : DB)
    (ht : Threaded d) :
    Threaded (l.foldl (importPerson today) d) ∧
    (l.foldl (importPerson today) d).people.length = d.people.length + l.length ∧
    (l.foldl (importPerson today) d).cycles.length = d.cycles.length + l.length := by
  induction l generalizing d with
  | nil => simpa using ht
  | cons pd rest ih =>
    simp only [List.foldl_cons, List.length_cons]
    obtain ⟨h1, h2, h3⟩ := importPerson_step today d pd ht
    obtain ⟨g1, g2, g3⟩ := ih (importPerson today d pd) h1
    refine ⟨g1, ?_, ?_⟩
    · rw [g2, h2]
      omega
    · rw [g3, h3]
      omega

/-- C8, counterexample: the claim says restore re-inserts every person with
their cycles and re-attaches each collection to the same cycle it belonged
to in the dump.  For a dump whose person has two cycles and a collection on
the closed one, the import creates a single cycle row (a copy of the
dump's active cycle) and attaches the collection to it: the closed cycle is
not re-inserted and the collection ends up on a different — active — cycle. -/
theorem C8_counterexample :
    dumpPd.cycles.length = 2 ∧
    dumpPd.collections.map (fun c => c.cycleId) = [1] ∧
    (dumpPd.cycles.filter (fun c => c.id == 1)).map (fun c => c.isActive) = [false] ∧
    (importDatabaseFromJSON emptyDB dumpX day1).cycles.length = 1 ∧
    (importDatabaseFromJSON emptyDB dumpX day1).collections.map (fun c => c.cycleId) = [1] ∧
    findCycle (importDatabaseFromJSON emptyDB dumpX day1) 1 =
      some ⟨1, 1, "2025-06-01", none, 100, true, none, none⟩ := by
  decide

/-- C8 (amended): restore deletes all existing rows (the result only depends
on the cleared state) and re-inserts one person and exactly one fresh
active cycle per dumped person, re-threading every dumped collection and
withdrawal of the person onto that one new cycle (not onto the cycle it
belonged to in the dump; the dump's historical cycles are not re-created). -/
theorem C8_restore_rethreads (db : DB) (dump : Dump) (today : String) :
    importDatabaseFromJSON db dump today = importDatabaseFromJSON (clearAll db) dump today ∧
    (importDatabaseFromJSON db dump today).people.length = dump.people.length ∧
    (importDatabaseFromJSON db dump today).cycles.length = dump.people.length ∧
    (∀ c ∈ (importDatabaseFromJSON db dump today).collections,
      ∃ cy ∈ (importDatabaseFromJSON db dump today).cycles,
        cy.id = c.cycleId ∧ cy.personId = c.personId ∧ cy.isActive = true) ∧
    (∀ w ∈ (importDatabaseFromJSON db dump today).withdrawals,
      ∃ cy ∈ (importDatabaseFromJSON db dump today).cycles,
        cy.id = w.cycleId ∧ cy.personId = w.personId ∧ cy.isActive = true) := by
  have hstart : Threaded (clearAll db) :=
    ⟨fun c hc => absurd hc (List.not_mem_nil c), fun w hw => absurd hw (List.not_mem_nil w)⟩
  obtain ⟨ht, hpl, hcl⟩ := import_fold_threaded today dump.people (clearAll db) hstart
  exact ⟨rfl, hpl.trans (Nat.zero_add _), hcl.trans (Nat.zero_add _), ht.1, ht.2⟩

end CollectionTracker
